import Mathlib

/-!
A shallow embedding of the audit core of the figmalint repository
(src/core/collection-validator.ts, src/cli/reporters.ts) together with
theorems settling the specification claims about it.

Modelling conventions:
* JS strings are Lean `String`s; `String.prototype.includes` becomes an
  infix-of check over character lists, `endsWith` a suffix check.
* JS numbers used as integral scalars (font sizes, paddings, counts) are
  `Int`; color channels and ratio comparisons use `ℚ`.
* JS `Map`/`Set` (insertion-ordered) are association lists / duplicate-free
  lists built in insertion order.
* Fallible code (the try/catch recovery boundaries) is modelled with
  `Except`: a validator body either returns its record or a thrown value.
-/

namespace FigmaLint

/-- JS `String.prototype.includes`: `sub` occurs somewhere in `s`. -/
def jsIncludes (s sub : String) : Bool :=
  decide (sub.toList <:+: s.toList)

/-- JS `String.prototype.endsWith`. -/
def jsEndsWith (s sub : String) : Bool :=
  decide (sub.toList <:+ s.toList)

/-- JS `String.prototype.startsWith`. -/
def jsStartsWith (s sub : String) : Bool :=
  decide (sub.toList <+: s.toList)

/-- JS `String.prototype.toLowerCase` (ASCII, like the names audited here);
implemented over the character list so it evaluates inside the kernel. -/
def jsToLower (s : String) : String :=
  String.mk (s.toList.map Char.toLower)

/-- JS `String.prototype.trim`. -/
def jsTrim (s : String) : String :=
  String.mk (((s.toList.dropWhile Char.isWhitespace).reverse.dropWhile
    Char.isWhitespace).reverse)

/-- Split a character list on a separator character (JS
`String.prototype.split` with a one-character separator). -/
def splitCharAux (sep : Char) : List Char → List (List Char)
  | [] => [[]]
  | c :: cs =>
    let r := splitCharAux sep cs
    if c = sep then [] :: r
    else
      match r with
      | [] => [[c]]
      | h :: t => (c :: h) :: t

/-- JS `name.split('/')`. -/
def jsSplitSlash (s : String) : List String :=
  (splitCharAux '/' s.toList).map String.mk

/-- JS `name.toLowerCase().trim()` as used throughout the validators. -/
def jsNorm (s : String) : String :=
  jsTrim (jsToLower s)

/-- Round the nonnegative rational `p / q` (with `q > 0`) to the nearest
natural number, ties to even — the IEEE-754 default rounding applied to an
exact quotient. -/
def natRoundNearEven (p q : Nat) : Nat :=
  let t := p / q
  let r := p % q
  if 2 * r < q then t
  else if q < 2 * r then t + 1
  else if t % 2 = 0 then t else t + 1

/-- Fuel-based binary logarithm (structural recursion, so it reduces in the
kernel): `nlog2Go fuel n` is the floor of log2 of `n` whenever
`fuel ≥ n ≥ 1`. -/
def nlog2Go : Nat → Nat → Nat
  | 0, _ => 0
  | fuel + 1, n => if n < 2 then 0 else nlog2Go fuel (n / 2) + 1

/-- Floor of the binary logarithm of `n` (for `n ≥ 1`). -/
def nlog2 (n : Nat) : Nat := nlog2Go n n

/-- The unique exponent `e` with `2 ^ e ≤ n / d < 2 ^ (e + 1)`, for
`n, d ≥ 1`: the first guess `nlog2 n - nlog2 d` is off by at most one, and
the comparison `n / d < 2 ^ g` (cleared of denominators) fixes it up. -/
def qlog2 (n d : Nat) : Int :=
  let g : Int := (nlog2 n : Int) - (nlog2 d : Int)
  if n * 2 ^ (-g).toNat < d * 2 ^ g.toNat then g - 1 else g

/-- The IEEE-754 binary64 (JS number) value nearest to the rational
`n / d` (round to nearest, ties to even, 53 significant bits, gradual
underflow below `2 ^ (-1022)`), returned as a dyadic pair `(m, qe)` whose
value is `m * 2 ^ qe`. Every quotient in this development stays far below
the overflow threshold `2 ^ 1024`, and its operands (a JS array length and
a filtered count, both `< 2 ^ 32`) are exactly representable, so this is
exactly the double produced by the JS division `n / d`. -/
def flRatPair (n d : Nat) : Nat × Int :=
  if n = 0 then (0, 0)
  else
    let e := qlog2 n d
    let qe : Int := if e - 52 < -1074 then -1074 else e - 52
    let m := if 0 ≤ qe then natRoundNearEven n (d * 2 ^ qe.toNat)
             else natRoundNearEven (n * 2 ^ (-qe).toNat) d
    (m, qe)

/-- The IEEE-754 binary64 value nearest to the dyadic rational
`M * 2 ^ E` (round to nearest, ties to even), as a dyadic pair: this is
the rounding a JS multiplication applies to its exact product. -/
def flDyadic (M : Nat) (E : Int) : Nat × Int :=
  if M = 0 then (0, 0)
  else
    let e : Int := (nlog2 M : Int) + E
    let qe : Int := if e - 52 < -1074 then -1074 else e - 52
    let m := if qe ≤ E then M * 2 ^ (E - qe).toNat
             else natRoundNearEven M (2 ^ (qe - E).toNat)
    (m, qe)

/-- JS `Math.round` on the nonnegative double `v.1 * 2 ^ v.2`: the nearest
integer to the exact value, ties toward positive infinity. -/
def jsMathRoundPair (v : Nat × Int) : Nat :=
  if 0 ≤ v.2 then v.1 * 2 ^ v.2.toNat
  else (2 * v.1 + 2 ^ (-v.2).toNat) / 2 ^ ((-v.2).toNat + 1)

/-- `Math.round((passed / total) * 100)` exactly as JS evaluates it, for
`total > 0`: the division rounds to the nearest double, the multiplication
by 100 rounds the exact product to the nearest double, and `Math.round`
takes the nearest integer (ties up) of that double. In particular
`jsScore 57 200 = 28`, not the 29 that exact rational rounding would give,
because `(57 / 200) * 100` evaluates to a double slightly below `28.5`. -/
def jsScore (passed total : Nat) : Nat :=
  let q := flRatPair passed total
  jsMathRoundPair (flDyadic (q.1 * 100) q.2)

-- ============================================================================
-- AuditCheck (src/types.ts): the sole output unit of every validator
-- ============================================================================

/-- The status of one audit check. -/
inductive AuditStatus where
  | pass
  | fail
  | warning
deriving DecidableEq, Repr

/-- One audit finding: `{check, status, suggestion, pageName?}`. -/
structure AuditCheck where
  check : String
  status : AuditStatus
  suggestion : String
  pageName : Option String := none
deriving DecidableEq, Repr

-- ============================================================================
-- Score aggregator (src/cli/reporters.ts, calculateAuditStats)
-- ============================================================================

/-- `ScoreStats` from src/cli/reporters.ts. -/
structure ScoreStats where
  score : Nat
  passed : Nat
  warnings : Nat
  failed : Nat
  total : Nat
deriving DecidableEq, Repr

/-- `calculateAuditStats` from src/cli/reporters.ts: the empty list scores
100; otherwise `passed`/`failed` count the pass/fail checks, `total` is the
length of the list and `score = Math.round((passed / total) * 100)`. -/
def calculateAuditStats (checks : List AuditCheck) : ScoreStats :=
  if checks.length = 0 then
    { score := 100, passed := 0, warnings := 0, failed := 0, total := 0 }
  else
    let passed := (checks.filter (fun c => c.status = AuditStatus.pass)).length
    let failed := (checks.filter (fun c => c.status = AuditStatus.fail)).length
    let total := checks.length
    let score := jsScore passed total
    { score := score, passed := passed, warnings := 0, failed := failed, total := total }

/-- `calculateComponentStats` from src/cli/reporters.ts (same reduction,
without the `warnings` field). -/
structure ComponentScoreStats where
  score : Nat
  passed : Nat
  failed : Nat
  total : Nat
deriving DecidableEq, Repr

/-- `calculateComponentStats` from src/cli/reporters.ts. -/
def calculateComponentStats (checks : List AuditCheck) : ComponentScoreStats :=
  if checks.length = 0 then
    { score := 100, passed := 0, failed := 0, total := 0 }
  else
    let passed := (checks.filter (fun c => c.status = AuditStatus.pass)).length
    let failed := (checks.filter (fun c => c.status = AuditStatus.fail)).length
    let total := checks.length
    let score := jsScore passed total
    { score := score, passed := passed, failed := failed, total := total }

-- ============================================================================
-- Variable / collection data model (src/shared/types)
-- ============================================================================

/-- A color value `{r, g, b, a}`; channels are JS numbers, modelled as `ℚ`. -/
structure LintRGBA where
  r : ℚ
  g : ℚ
  b : ℚ
  a : ℚ
deriving DecidableEq, Repr

/-- A variable value: primitive (string/number/boolean), color, or an alias
`{type: 'VARIABLE_ALIAS', id}` referencing another variable. -/
inductive LintVariableValue where
  | str (s : String)
  | num (n : ℚ)
  | boolean (b : Bool)
  | color (c : LintRGBA)
  | alias (id : String)
deriving DecidableEq, Repr

/-- `LintVariableCollection`: `{id, name}`. -/
structure LintVariableCollection where
  id : String
  name : String
deriving DecidableEq, Repr

/-- `LintVariable`: `{id, name, variableCollectionId, valuesByMode}`.
`valuesByMode` is a JS record, modelled as an insertion-ordered list of
`(modeId, value)` pairs. -/
structure LintVariable where
  id : String
  name : String
  variableCollectionId : String
  valuesByMode : List (String × LintVariableValue)
deriving DecidableEq, Repr

-- ============================================================================
-- Category extraction (extractCategories, src/core/collection-validator.ts)
-- ============================================================================

/-- The `Map<string, Set<string>>` of categories: an insertion-ordered
association list whose values are duplicate-free insertion-ordered lists. -/
abbrev CatMap := List (String × List String)

/-- `Set.add`: append if not already present. -/
def setAdd (s : List String) (x : String) : List String :=
  if x ∈ s then s else s ++ [x]

/-- `Map.get`. -/
def catMapGet (m : CatMap) (k : String) : Option (List String) :=
  (m.find? (fun e => e.1 = k)).map (fun e => e.2)

/-- `Map.has`. -/
def catMapHas (m : CatMap) (k : String) : Bool :=
  (m.find? (fun e => e.1 = k)).isSome

/-- `Map.set(k, new Set())` guarded by `has`: ensure the key exists. -/
def catMapEnsure (m : CatMap) (k : String) : CatMap :=
  if catMapHas m k then m else m ++ [(k, [])]

/-- `categories.get(k)!.add(x)`: add `x` to the set at key `k` (in place). -/
def catMapAddSub (m : CatMap) (k x : String) : CatMap :=
  m.map (fun e => if e.1 = k then (e.1, setAdd e.2 x) else e)

/-- The per-variable step of `extractCategories`: split the name on `/`,
lower-case and trim each part, record the head as a category and every
later part as a sub-category of it. -/
def extractCategoriesStep (m : CatMap) (v : LintVariable) : CatMap :=
  match jsSplitSlash v.name with
  | [] => m
  | c :: rest =>
    let top := jsNorm c
    let m₁ := catMapEnsure m top
    rest.foldl (fun acc p => catMapAddSub acc top (jsNorm p)) m₁

/-- `extractCategories` from src/core/collection-validator.ts. -/
def extractCategories (vars : List LintVariable) : CatMap :=
  vars.foldl extractCategoriesStep []

-- ============================================================================
-- Requirement schema and category validation
-- ============================================================================

/-- `subCategoryPattern` of a `CategoryRequirement`; the regex is modelled as
an executable predicate on strings. -/
structure SubPattern where
  pattern : String → Bool
  description : String
  examples : List String

/-- `CategoryRequirement` from src/core/collection-validator.ts. -/
structure CategoryRequirement where
  name : String
  subCategories : Option (List String) := none
  subCategoryPartialMatch : Option Bool := none
  subCategoryPattern : Option SubPattern := none
  mirrorCategory : Option String := none

/-- `CollectionRequirement`: the name pattern is modelled as an executable
predicate on the collection name. -/
structure CollectionRequirement where
  namePattern : String → Bool
  displayName : String
  requiredCategories : List CategoryRequirement

/-- `/primitives?/i.test(name)`: true iff the lower-cased name contains the
substring `primitive` (the optional trailing `s` is redundant for a
substring search). -/
def matchesPrimitives (name : String) : Bool :=
  jsIncludes (jsToLower name) "primitive"

/-- `/theme/i.test(name)`. -/
def matchesTheme (name : String) : Bool :=
  jsIncludes (jsToLower name) "theme"

/-- `/brand/i.test(name)`. -/
def matchesBrand (name : String) : Bool :=
  jsIncludes (jsToLower name) "brand"

/-- The t-shirt-size regex `^(\d+)?(x+)?(xs|sm|md|lg|xl)$/i`: the string
(lower-cased) ends in one of `xs, sm, md, lg, xl`, preceded by optional
digits then optional `x`s. -/
def tshirtPattern (s : String) : Bool :=
  let cs := (jsToLower s).toList
  ["xs", "sm", "md", "lg", "xl"].any (fun suf =>
    decide (suf.toList <:+ cs) &&
    ((cs.take (cs.length - 2)).dropWhile Char.isDigit).all (fun c => c = 'x'))

/-- `DEFAULT_COLLECTION_REQUIREMENTS`. -/
def DEFAULT_COLLECTION_REQUIREMENTS : List CollectionRequirement :=
  [ { namePattern := matchesPrimitives
      displayName := "Primitives"
      requiredCategories := [ { name := "color" } ] },
    { namePattern := matchesBrand
      displayName := "Brand"
      requiredCategories :=
        [ { name := "color" },
          { name := "typography"
            subCategories := some ["font-family", "font-weight", "font-size",
              "letter-spacing", "line-height"] } ] },
    { namePattern := matchesTheme
      displayName := "Theme"
      requiredCategories :=
        [ { name := "colors", subCategories := some ["bg", "text", "border"] },
          { name := "font-family"
            subCategories := some ["display", "heading", "body", "label"]
            subCategoryPartialMatch := some true },
          { name := "font-weight" },
          { name := "font-size"
            subCategoryPattern := some
              { pattern := tshirtPattern
                description := "t-shirt size naming convention"
                examples := ["xs", "sm", "md", "lg", "xl", "2xl", "3xl", "2xs", "3xs"] } },
          { name := "line-height", mirrorCategory := some "font-size" },
          { name := "letter-spacing", mirrorCategory := some "font-size" },
          { name := "spacing" } ] } ]

/-- `patternValidation` field of a `SubCategoryResult`. -/
structure PatternValidation where
  allMatch : Bool
  invalidNames : List String
  patternDescription : String
  examples : List String
deriving DecidableEq, Repr

/-- `mirrorValidation` field of a `SubCategoryResult`. -/
structure MirrorValidation where
  sourceCategory : String
  missingSizes : List String
  extraSizes : List String
  isFullMatch : Bool
deriving DecidableEq, Repr

/-- `SubCategoryResult`. -/
structure SubCategoryResult where
  category : String
  found : List String
  missing : List String
  patternValidation : Option PatternValidation := none
  mirrorValidation : Option MirrorValidation := none
deriving DecidableEq, Repr

/-- `CollectionValidationResult`. -/
structure CollectionValidationResult where
  collectionName : String
  matchedRequirement : String
  isValid : Bool
  foundCategories : List String
  missingCategories : List String
  subCategoryResults : List SubCategoryResult
deriving DecidableEq, Repr

/-- The mirror-category block of `validateCategories` (lines 567-590):
given this category's sub-category set and the mirrored source's set,
compute the asymmetric differences and whether the sets coincide. -/
def mirrorValidationOf (sourceCategoryName : String)
    (subCategories sourceSubCategories : List String) : SubCategoryResult :=
  let missingSizes := sourceSubCategories.filter (fun size => size ∉ subCategories)
  let extraSizes := subCategories.filter (fun size => size ∉ sourceSubCategories)
  { category := "" -- filled in by the caller
    found := subCategories.filter (fun size => size ∈ sourceSubCategories)
    missing := missingSizes
    mirrorValidation := some
      { sourceCategory := sourceCategoryName
        missingSizes := missingSizes
        extraSizes := extraSizes
        isFullMatch := missingSizes.length = 0 && extraSizes.length = 0 } }

/-- The per-required-category body of `validateCategories`: the
`SubCategoryResult`s this category contributes (in push order). -/
def subResultsForCategory (reqCategory : CategoryRequirement)
    (subCategories : List String) (categories : CatMap) : List SubCategoryResult :=
  let subsChecks : List SubCategoryResult :=
    match reqCategory.subCategories with
    | some reqSubs =>
      if reqSubs.length > 0 then
        let usePartialMatch := reqCategory.subCategoryPartialMatch = some true
        let foundSubs := reqSubs.filter (fun reqSub =>
          let subName := jsToLower reqSub
          if usePartialMatch then
            subCategories.any (fun actual => jsIncludes actual subName)
          else
            subName ∈ subCategories)
        let missingSubs := reqSubs.filter (fun reqSub =>
          let subName := jsToLower reqSub
          if usePartialMatch then
            !(subCategories.any (fun actual => jsIncludes actual subName))
          else
            subName ∉ subCategories)
        [{ category := reqCategory.name, found := foundSubs, missing := missingSubs }]
      else []
    | none => []
  let patternChecks : List SubCategoryResult :=
    match reqCategory.subCategoryPattern with
    | some sp =>
      let invalidNames := subCategories.filter (fun name => !sp.pattern name)
      let validNames := subCategories.filter (fun name => sp.pattern name)
      [{ category := reqCategory.name
         found := validNames
         missing := []
         patternValidation := some
           { allMatch := invalidNames.length = 0 && subCategories.length > 0
             invalidNames := invalidNames
             patternDescription := sp.description
             examples := sp.examples } }]
    | none => []
  let mirrorChecks : List SubCategoryResult :=
    match reqCategory.mirrorCategory with
    | some mirrorName =>
      let sourceCategory := jsToLower mirrorName
      let sourceSubCategories := (catMapGet categories sourceCategory).getD []
      [{ mirrorValidationOf mirrorName subCategories sourceSubCategories with
         category := reqCategory.name }]
    | none => []
  subsChecks ++ patternChecks ++ mirrorChecks

/-- `validateCategories` from src/core/collection-validator.ts. -/
def validateCategories (collectionName : String)
    (requirement : CollectionRequirement) (categories : CatMap) :
    CollectionValidationResult :=
  let step := fun (acc : List String × List String × List SubCategoryResult)
      (reqCategory : CategoryRequirement) =>
    let (foundCategories, missingCategories, subCategoryResults) := acc
    let categoryName := jsToLower reqCategory.name
    match catMapGet categories categoryName with
    | some subCategories =>
      (foundCategories ++ [reqCategory.name], missingCategories,
       subCategoryResults ++ subResultsForCategory reqCategory subCategories categories)
    | none =>
      (foundCategories, missingCategories ++ [reqCategory.name], subCategoryResults)
  let (foundCategories, missingCategories, subCategoryResults) :=
    requirement.requiredCategories.foldl step ([], [], [])
  let hasAllCategories := missingCategories.length = 0
  let hasAllSubCategories := subCategoryResults.all (fun r =>
    if r.missing.length > 0 then false
    else if (match r.patternValidation with
             | some pv => pv.allMatch = false && r.found.length = 0
             | none => false) then false
    else match r.mirrorValidation with
         | some mv => mv.isFullMatch
         | none => true)
  { collectionName := collectionName
    matchedRequirement := requirement.displayName
    isValid := hasAllCategories && hasAllSubCategories
    foundCategories := foundCategories
    missingCategories := missingCategories
    subCategoryResults := subCategoryResults }

-- ============================================================================
-- Collection structure validation (validateCollectionStructure)
-- ============================================================================

/-- `CollectionStructureValidation`. -/
structure CollectionStructureValidation where
  hasAllCollections : Bool
  validatedCollections : List CollectionValidationResult
  missingCollections : List String
  auditChecks : List AuditCheck
deriving Repr

/-- `list.slice(0, k).join(', ')` followed by `, and N more` when longer. -/
def jsPreviewMore (l : List String) (k : Nat) : String :=
  String.intercalate ", " (l.take k) ++
    (if l.length > k then ", and " ++ toString (l.length - k) ++ " more" else "")

/-- `found.slice(0, 5).join(', ')` followed by `... (N total)` when longer. -/
def jsPreviewTotal (l : List String) (k : Nat) : String :=
  String.intercalate ", " (l.take k) ++
    (if l.length > k then "... (" ++ toString l.length ++ " total)" else "")

/-- `aliasCount` and `themeVariables.length` of the Theme-to-Primitives
pre-check (lines 229-255): how many of the Theme collection's per-mode
values are aliases into the Primitives collection's variable-id set.
`(0, 0)` when either collection is missing. -/
def themeAliasStats (collections : List LintVariableCollection)
    (allVariables : List LintVariable) : Nat × Nat :=
  match collections.find? (fun c => matchesPrimitives c.name),
        collections.find? (fun c => matchesTheme c.name) with
  | some primitivesCollection, some themeCollection =>
    let themeVariables := allVariables.filter
      (fun v => v.variableCollectionId = themeCollection.id)
    let primitivesVariableIds := (allVariables.filter
      (fun v => v.variableCollectionId = primitivesCollection.id)).map (fun v => v.id)
    let aliasCount := (themeVariables.map (fun themeVar =>
      (themeVar.valuesByMode.filter (fun mv =>
        match mv.2 with
        | LintVariableValue.alias aliasId => aliasId ∈ primitivesVariableIds
        | _ => false)).length)).sum
    (aliasCount, themeVariables.length)
  | _, _ => (0, 0)

/-- `themeConnectedToPrimitives` (lines 230-256): Primitives and Theme both
exist, Brand does not, and
`aliasCount > 0 && aliasCount / themeVariables.length >= 0.1`. The division
is stated over the naturals as `length ≤ 10 * aliasCount`, which agrees with
the JS comparison on every input: for `length > 0` the two inequalities are
equivalent, and for `length = 0` the conjunction is decided by the
`aliasCount > 0` guard exactly as in JS (`0/0 = NaN` compares false,
`n/0 = Infinity` compares true). -/
def themeConnectedToPrimitivesOf (collections : List LintVariableCollection)
    (allVariables : List LintVariable) : Bool :=
  match collections.find? (fun c => matchesPrimitives c.name),
        collections.find? (fun c => matchesTheme c.name),
        collections.find? (fun c => matchesBrand c.name) with
  | some _, some _, none =>
    let stats := themeAliasStats collections allVariables
    decide (0 < stats.1) && decide (stats.2 ≤ 10 * stats.1)
  | _, _, _ => false

/-- The missing-collection example lines (lines 279-290). -/
def missingCollectionExample (cat : CategoryRequirement) : String :=
  if cat.name = "color" then
    "  - color/primary, color/secondary, color/accent (brand colors)"
  else if cat.name = "space" then
    "  - space/xs, space/sm, space/md, space/lg, space/xl (spacing scale)"
  else if cat.name = "radius" then
    "  - radius/sm, radius/md, radius/lg (corner radii)"
  else
    "  - " ++ cat.name ++ "/..."

/-- The missing-category example lines (lines 328-339). -/
def missingCategoryExample (cat : String) : String :=
  if cat = "color" then
    "  - " ++ cat ++ "/primary, " ++ cat ++ "/secondary, " ++ cat ++ "/accent"
  else if cat = "space" then
    "  - " ++ cat ++ "/xs, " ++ cat ++ "/sm, " ++ cat ++ "/md, " ++ cat ++ "/lg"
  else if cat = "radius" then
    "  - " ++ cat ++ "/sm, " ++ cat ++ "/md, " ++ cat ++ "/lg"
  else
    "  - " ++ cat ++ "/*"

/-- The audit checks emitted for one `SubCategoryResult` of an invalid
collection (lines 349-415), in push order. -/
def checksForSubResult (displayName collectionName : String)
    (subResult : SubCategoryResult) : List AuditCheck :=
  let missingChecks : List AuditCheck :=
    if subResult.missing.length > 0 then
      let missingList := jsPreviewMore subResult.missing 5
      let exampleVars := String.intercalate "\n"
        ((subResult.missing.take 3).map (fun m => "  - " ++ subResult.category ++ "/" ++ m))
      [{ check := displayName ++ " " ++ (subResult.category ++ " sub-categories")
         status := AuditStatus.fail
         suggestion := "\"" ++ collectionName ++ "\" " ++ subResult.category ++
           " category is missing sub-categories: " ++ missingList ++
           ".\n\nAdd these variables to complete your " ++ subResult.category ++
           " scale:\n" ++ exampleVars ++
           "\n\nConsistent sub-categories across all categories are required for a complete design system." }]
    else []
  let patternChecks : List AuditCheck :=
    match subResult.patternValidation with
    | some pv =>
      if subResult.found.length = 0 then
        let exampleVars := String.intercalate "\n"
          ((pv.examples.take 3).map (fun ex => "  - " ++ ex))
        [{ check := displayName ++ " " ++ (subResult.category ++ " naming")
           status := AuditStatus.fail
           suggestion := "\"" ++ collectionName ++ "\" " ++ subResult.category ++
             " category has no sub-categories following the expected naming pattern.\n\nExpected pattern: " ++
             pv.patternDescription ++ "\n\nAdd variables like:\n" ++ exampleVars ++
             "\n\nConsistent naming is required for a predictable design system." }]
      else
        let foundList := jsPreviewTotal subResult.found 5
        [{ check := displayName ++ " " ++ (subResult.category ++ " naming")
           status := AuditStatus.pass
           suggestion := "\"" ++ collectionName ++ "\" " ++ subResult.category ++
             " follows the correct naming pattern with sizes: " ++ foundList }]
    | none => []
  let mirrorChecks : List AuditCheck :=
    match subResult.mirrorValidation with
    | some mv =>
      let missingPart :=
        if mv.missingSizes.length > 0 then
          let missingList := jsPreviewMore mv.missingSizes 5
          let exampleVars := String.intercalate "\n"
            ((mv.missingSizes.take 3).map (fun sz => "  - " ++ subResult.category ++ "/" ++ sz))
          [{ check := displayName ++ " " ++ (subResult.category ++ " sizes")
             status := AuditStatus.fail
             suggestion := "\"" ++ collectionName ++ "\" " ++ subResult.category ++
               " is missing sizes that exist in " ++ mv.sourceCategory ++ ": " ++
               missingList ++ ".\n\nAdd these variables to mirror your " ++
               mv.sourceCategory ++ " scale:\n" ++ exampleVars ++ "\n\nKeeping " ++
               subResult.category ++ " and " ++ mv.sourceCategory ++
               " synchronized is required for consistent typography." }]
        else []
      let extraPart :=
        if mv.extraSizes.length > 0 then
          let extraList := jsPreviewMore mv.extraSizes 5
          [{ check := displayName ++ " " ++ (subResult.category ++ " extra sizes")
             status := AuditStatus.fail
             suggestion := "\"" ++ collectionName ++ "\" " ++ subResult.category ++
               " has sizes that don't exist in " ++ mv.sourceCategory ++ ": " ++
               extraList ++ ".\n\nFix by either:\n  - Adding these sizes to " ++
               mv.sourceCategory ++ " (if they're needed)\n  - Removing them from " ++
               subResult.category ++
               " (if they're unused)\n\nMatched scales are required for consistent typography." }]
        else []
      let fullPart :=
        if mv.isFullMatch && subResult.found.length > 0 then
          [{ check := displayName ++ " " ++
               (subResult.category ++ " mirrors " ++ mv.sourceCategory)
             status := AuditStatus.pass
             suggestion := "\"" ++ collectionName ++ "\" " ++ subResult.category ++
               " correctly mirrors all " ++ mv.sourceCategory ++ " sizes (" ++
               toString subResult.found.length ++ " sizes matched)" }]
        else []
      missingPart ++ extraPart ++ fullPart
    | none => []
  missingChecks ++ patternChecks ++ mirrorChecks

/-- One iteration of the requirement loop of `validateCollectionStructure`
(lines 259-417): the validation result (when the collection exists) and the
audit checks pushed for this requirement. -/
def checksForRequirement (collections : List LintVariableCollection)
    (allVariables : List LintVariable) (themeConnectedToPrimitives : Bool)
    (requirement : CollectionRequirement) :
    Option CollectionValidationResult × List AuditCheck :=
  match collections.find? (fun c => requirement.namePattern c.name) with
  | none =>
    (none,
     if requirement.displayName = "Brand" ∧ themeConnectedToPrimitives = true then
       [{ check := requirement.displayName ++ " " ++ "collection"
          status := AuditStatus.pass
          suggestion := "Brand collection not required - Theme variables are connected directly to Primitives. This is a valid design token architecture." }]
     else
       let examples := String.intercalate "\n"
         (requirement.requiredCategories.map missingCollectionExample)
       [{ check := requirement.displayName ++ " " ++ "collection"
          status := AuditStatus.fail
          suggestion := "No \"" ++ requirement.displayName ++
            "\" collection found. Create one with these categories:\n\n" ++ examples ++
            "\n\nThis collection is required for a complete design system structure." }])
  | some matchingCollection =>
    let collectionVariables := allVariables.filter
      (fun v => v.variableCollectionId = matchingCollection.id)
    let categories := extractCategories collectionVariables
    let validationResult := validateCategories matchingCollection.name requirement categories
    let checks : List AuditCheck :=
      if validationResult.isValid then
        [{ check := requirement.displayName ++ " " ++ "collection structure"
           status := AuditStatus.pass
           suggestion := "\"" ++ matchingCollection.name ++
             "\" has all required categories: " ++
             String.intercalate ", " validationResult.foundCategories }]
      else
        let missingCatChecks : List AuditCheck :=
          if validationResult.missingCategories.length > 0 then
            let missingExamples := String.intercalate "\n"
              (validationResult.missingCategories.map missingCategoryExample)
            [{ check := requirement.displayName ++ " " ++ "collection categories"
               status := AuditStatus.fail
               suggestion := "\"" ++ matchingCollection.name ++
                 "\" collection is missing required categories: " ++
                 String.intercalate ", " validationResult.missingCategories ++
                 ".\n\nAdd variables following these patterns:\n" ++ missingExamples ++
                 "\n\nThese categories are essential for a complete " ++
                 requirement.displayName ++ " collection." }]
          else []
        missingCatChecks ++
          (validationResult.subCategoryResults.map
            (checksForSubResult requirement.displayName matchingCollection.name)).flatten
    (some validationResult, checks)

/-- `validateCollectionStructure` from src/core/collection-validator.ts
(the non-throwing body; the try/catch boundary is modelled separately).
`missingCollections` is never appended to in the source, so it is always
empty and `hasAllCollections` always true. -/
def validateCollectionStructure (collections : List LintVariableCollection)
    (allVariables : List LintVariable)
    (requirements : List CollectionRequirement) : CollectionStructureValidation :=
  let themeConnected := themeConnectedToPrimitivesOf collections allVariables
  let validatedCollections := requirements.filterMap
    (fun req => (checksForRequirement collections allVariables themeConnected req).1)
  let loopChecks := (requirements.map
    (fun req => (checksForRequirement collections allVariables themeConnected req).2)).flatten
  let missingCollections : List String := []
  let auditChecks :=
    if validatedCollections.length > 0 &&
        validatedCollections.all (fun v => v.isValid) then
      { check := "Variable collection structure"
        status := AuditStatus.pass
        suggestion := "All detected collections (" ++
          String.intercalate ", " (validatedCollections.map (fun v => v.matchedRequirement)) ++
          ") have proper structure" : AuditCheck } :: loopChecks
    else loopChecks
  { hasAllCollections := missingCollections.length = 0
    validatedCollections := validatedCollections
    missingCollections := missingCollections
    auditChecks := auditChecks }

-- ============================================================================
-- Text style & font-family variable validation
-- (validateTextStylesAgainstVariables)
-- ============================================================================

/-- A variable reference `{id}` bound to a property. -/
structure LintBoundVariable where
  id : String
deriving DecidableEq, Repr

/-- The `boundVariables` record of a text style, restricted to the four
typography properties the validator reads. A property is bound when the
field is present with a truthy (non-empty) id. -/
structure TextStyleBoundVariables where
  fontFamily : Option LintBoundVariable := none
  fontSize : Option LintBoundVariable := none
  letterSpacing : Option LintBoundVariable := none
  lineHeight : Option LintBoundVariable := none
deriving DecidableEq, Repr

/-- `LintTextStyle`: `{name, boundVariables}`. -/
structure LintTextStyle where
  name : String
  boundVariables : TextStyleBoundVariables := {}
deriving DecidableEq, Repr

/-- `TextStyleValidationResult`. -/
structure TextStyleValidationResult where
  fontFamilyVariables : List String
  textStyleCategories : List String
  variablesMissingStyles : List String
  stylesMissingVariables : List String
  isFullMatch : Bool
deriving DecidableEq, Repr

/-- The de-duplicated `font-family/*` sub-categories of the Theme collection
(lines 657-673): for each Theme variable whose normalized name starts with
segment `font-family` and has a second segment, collect that segment once. -/
def fontFamilyVariablesOf (collections : List LintVariableCollection)
    (allVariables : List LintVariable) : List String :=
  match collections.find? (fun c => matchesTheme c.name) with
  | none => []
  | some themeCollection =>
    let themeVariables := allVariables.filter
      (fun v => v.variableCollectionId = themeCollection.id)
    themeVariables.foldl (fun acc variable_ =>
      match (jsSplitSlash variable_.name).map jsNorm with
      | "font-family" :: subCategory :: _ => setAdd acc subCategory
      | _ => acc) []

/-- The de-duplicated first segments of all text style names (lines 676-684). -/
def textStyleCategoriesOf (textStyles : List LintTextStyle) : List String :=
  textStyles.foldl (fun acc style =>
    match (jsSplitSlash style.name).map jsNorm with
    | topCategory :: _ => setAdd acc topCategory
    | [] => acc) []

/-- The typography-pattern allowlist (line 700). -/
def typographyPatterns : List String :=
  ["display", "heading", "body", "label", "caption", "title", "subtitle", "overline"]

/-- Lines 701-703: the text-style categories matching a typography pattern. -/
def relevantTextCategories (textStyleCategories : List String) : List String :=
  textStyleCategories.filter (fun cat =>
    typographyPatterns.any (fun pattern => jsIncludes cat pattern))

/-- Lines 694-696: font-family variables with no partially-matching text
style category. Note that this direction runs over all text-style
categories, not only the allowlist-filtered relevant ones. -/
def variablesMissingStylesOf (fontFamilyVariables textStyleCategories : List String) :
    List String :=
  fontFamilyVariables.filter (fun v =>
    !(textStyleCategories.any (fun cat => jsIncludes cat v || jsIncludes v cat)))

/-- Lines 705-707: relevant text-style categories with no partially-matching
font-family variable. -/
def stylesMissingVariablesOf (fontFamilyVariables textStyleCategories : List String) :
    List String :=
  (relevantTextCategories textStyleCategories).filter (fun s =>
    !(fontFamilyVariables.any (fun v => jsIncludes s v || jsIncludes v s)))

/-- `validateTextStylesAgainstVariables` from
src/core/collection-validator.ts (the non-throwing body). -/
def validateTextStylesAgainstVariables (collections : List LintVariableCollection)
    (allVariables : List LintVariable) (textStyles : List LintTextStyle) :
    TextStyleValidationResult × List AuditCheck :=
  let fontFamilyVariables := fontFamilyVariablesOf collections allVariables
  let textStyleCategories := textStyleCategoriesOf textStyles
  let variablesMissingStyles := variablesMissingStylesOf fontFamilyVariables textStyleCategories
  let relevantCats := relevantTextCategories textStyleCategories
  let stylesMissingVariables := stylesMissingVariablesOf fontFamilyVariables textStyleCategories
  let isFullMatch :=
    variablesMissingStyles.length = 0 && stylesMissingVariables.length = 0
  let validation : TextStyleValidationResult :=
    { fontFamilyVariables := fontFamilyVariables
      textStyleCategories := textStyleCategories
      variablesMissingStyles := variablesMissingStyles
      stylesMissingVariables := stylesMissingVariables
      isFullMatch := isFullMatch }
  let auditChecks : List AuditCheck :=
    if fontFamilyVariables.length = 0 && textStyles.length = 0 then
      -- no font-family variables and no text styles: skip validation
      []
    else if fontFamilyVariables.length = 0 && textStyles.length > 0 then
      let categoryList := jsPreviewMore relevantCats 3
      let exampleVars := String.intercalate "\n"
        ((relevantCats.take 3).map (fun cat => "  - font-family/" ++ cat))
      [{ check := "Font-family variables"
         status := AuditStatus.warning
         suggestion := "You have text styles (" ++ categoryList ++
           ") but no matching font-family variables.\n\nAdd these variables to your Theme collection:\n" ++
           exampleVars ++
           "\n\nThis allows text styles to reference font families as variables instead of hard-coded font names." }]
    else if fontFamilyVariables.length > 0 && textStyles.length = 0 then
      let varList := jsPreviewMore fontFamilyVariables 3
      let exampleStyles := String.intercalate "\n"
        ((fontFamilyVariables.take 3).map (fun v => "  - " ++ v ++ "/xl, " ++ v ++ "/lg, " ++ v ++ "/md, etc."))
      [{ check := "Text styles"
         status := AuditStatus.warning
         suggestion := "You have font-family variables (" ++ varList ++
           ") but no matching text styles.\n\nCreate text styles following these patterns:\n" ++
           exampleStyles ++
           "\n\nText styles make typography consistent and easier to apply across your designs." }]
    else
      let missingStyleChecks : List AuditCheck :=
        if variablesMissingStyles.length > 0 then
          let varList := jsPreviewMore variablesMissingStyles 3
          let exampleStyles := String.intercalate "\n"
            ((variablesMissingStyles.take 3).map (fun v => "  - " ++ v ++ "/xl, " ++ v ++ "/lg, " ++ v ++ "/md"))
          [{ check := "Text styles for font-family variables"
             status := AuditStatus.fail
             suggestion := "These font-family variables don't have matching text styles: " ++
               varList ++ ".\n\nCreate text styles using these patterns:\n" ++ exampleStyles ++
               "\n\nAll font-family variables must have matching text styles." }]
        else []
      let missingVarChecks : List AuditCheck :=
        if stylesMissingVariables.length > 0 then
          let styleList := jsPreviewMore stylesMissingVariables 3
          let exampleVars := String.intercalate "\n"
            ((stylesMissingVariables.take 3).map (fun s => "  - font-family/" ++ s))
          [{ check := "Font-family variables for text styles"
             status := AuditStatus.fail
             suggestion := "These text style categories don't have matching font-family variables: " ++
               styleList ++ ".\n\nAdd these variables to your Theme collection:\n" ++ exampleVars ++
               "\n\nText styles must reference font-family variables dynamically." }]
        else []
      let passChecks : List AuditCheck :=
        if isFullMatch && fontFamilyVariables.length > 0 then
          [{ check := "Text styles & font-family sync"
             status := AuditStatus.pass
             suggestion := "All font-family variables (" ++
               String.intercalate ", " fontFamilyVariables ++
               ") have matching text styles" }]
        else []
      missingStyleChecks ++ missingVarChecks ++ passChecks
  (validation, auditChecks)

-- ============================================================================
-- Text style variable binding validation (validateTextStyleBindings)
-- ============================================================================

/-- `TYPOGRAPHY_PROPERTIES`. -/
inductive TypographyProperty where
  | fontFamily
  | fontSize
  | letterSpacing
  | lineHeight
deriving DecidableEq, Repr

/-- The property identifier as it appears in report strings. -/
def TypographyProperty.propName : TypographyProperty → String
  | .fontFamily => "fontFamily"
  | .fontSize => "fontSize"
  | .letterSpacing => "letterSpacing"
  | .lineHeight => "lineHeight"

/-- `TYPOGRAPHY_PROPERTIES` in iteration order. -/
def TYPOGRAPHY_PROPERTIES : List TypographyProperty :=
  [.fontFamily, .fontSize, .letterSpacing, .lineHeight]

/-- `boundVars[prop]`. -/
def TextStyleBoundVariables.get (bv : TextStyleBoundVariables) :
    TypographyProperty → Option LintBoundVariable
  | .fontFamily => bv.fontFamily
  | .fontSize => bv.fontSize
  | .letterSpacing => bv.letterSpacing
  | .lineHeight => bv.lineHeight

/-- One entry of `boundProperties` in a `TextStyleBindingResult`. -/
structure BoundPropertyResult where
  property : TypographyProperty
  variableName : String
  isCorrectBinding : Bool
  expectedPattern : String
deriving DecidableEq, Repr

/-- `TextStyleBindingResult`. -/
structure TextStyleBindingResult where
  styleName : String
  category : String
  size : String
  boundProperties : List BoundPropertyResult
  unboundProperties : List TypographyProperty
  isFullyBound : Bool
  hasCorrectBindings : Bool
deriving DecidableEq, Repr

/-- The per-property `switch` of `validateTextStyleBindings` (lines 913-941):
the expected pattern and whether the resolved variable name is a correct
binding for the style's category and size. -/
def bindingPatternFor (prop : TypographyProperty) (category size variableName : String) :
    String × Bool :=
  match prop with
  | .fontFamily =>
    ("font-family/" ++ category,
     jsIncludes variableName "font-family" && jsIncludes variableName category)
  | .fontSize =>
    ("font-size/" ++ size,
     jsIncludes variableName "font-size" &&
       (jsEndsWith variableName size || jsIncludes variableName ("/" ++ size)))
  | .letterSpacing =>
    ("letter-spacing/" ++ size,
     jsIncludes variableName "letter-spacing" &&
       (jsEndsWith variableName size || jsIncludes variableName ("/" ++ size)))
  | .lineHeight =>
    ("line-height/" ++ size,
     jsIncludes variableName "line-height" &&
       (jsEndsWith variableName size || jsIncludes variableName ("/" ++ size)))

/-- `variableIdToName.get`: the map is built by insertion over all variables,
so a duplicate id resolves to the last variable's lower-cased name. -/
def variableIdToName (allVariables : List LintVariable) (id : String) : Option String :=
  ((allVariables.filter (fun v => v.id = id)).getLast?).map (fun v => jsToLower v.name)

/-- Whether `boundVars[prop]` is present with a truthy (non-empty) id. -/
def propIsBound (bv : TextStyleBoundVariables) (prop : TypographyProperty) : Bool :=
  match bv.get prop with
  | some binding => binding.id ≠ ""
  | none => false

/-- The `boundProperties` entry built for a bound property (lines 905-948). -/
def boundEntryFor (lookupName : String → Option String) (bv : TextStyleBoundVariables)
    (category size : String) (prop : TypographyProperty) : BoundPropertyResult :=
  let binding := (bv.get prop).getD { id := "" }
  let variableName := (lookupName binding.id).getD "unknown"
  let pc := bindingPatternFor prop category size variableName
  { property := prop, variableName := variableName,
    isCorrectBinding := pc.2, expectedPattern := pc.1 }

/-- One iteration of the property loop (lines 902-953). -/
def bindStep (lookupName : String → Option String) (bv : TextStyleBoundVariables)
    (category size : String)
    (acc : List BoundPropertyResult × List TypographyProperty)
    (prop : TypographyProperty) :
    List BoundPropertyResult × List TypographyProperty :=
  if propIsBound bv prop then
    (acc.1 ++ [boundEntryFor lookupName bv category size prop], acc.2)
  else (acc.1, acc.2 ++ [prop])

/-- The loop body of `validateTextStyleBindings` for one style
(lines 876-976): `none` when the style name has fewer than two
slash-delimited segments (the style is skipped). -/
def processTextStyle (lookupName : String → Option String) (style : LintTextStyle) :
    Option TextStyleBindingResult :=
  let nameParts := (jsSplitSlash style.name).map jsNorm
  if nameParts.length < 2 then none
  else
    let category := nameParts.headD ""
    let size := if nameParts.length ≥ 3 then nameParts.getD 1 "" else nameParts.getLastD ""
    let folded := TYPOGRAPHY_PROPERTIES.foldl
      (bindStep lookupName style.boundVariables category size) ([], [])
    let boundProperties := folded.1
    let unboundProperties := folded.2
    some { styleName := style.name
           category := category
           size := size
           boundProperties := boundProperties
           unboundProperties := unboundProperties
           isFullyBound := unboundProperties.length = 0
           hasCorrectBindings := boundProperties.all (fun b => b.isCorrectBinding) }

/-- One entry of `stylesWithIssues` (lines 870-874): the incorrect bindings
are `(property, actual variable name, expected pattern)` triples. -/
structure StyleIssue where
  styleName : String
  unboundProps : List TypographyProperty
  incorrectBindings : List (TypographyProperty × String × String)
deriving DecidableEq, Repr

/-- Lines 979-993: a style is tracked as an issue when it has unbound
properties or an incorrectly named binding. -/
def issueOf (r : TextStyleBindingResult) : Option StyleIssue :=
  if 0 < r.unboundProperties.length ∨ r.hasCorrectBindings = false then
    some { styleName := r.styleName
           unboundProps := r.unboundProperties
           incorrectBindings := (r.boundProperties.filter
             (fun b => !b.isCorrectBinding)).map
             (fun b => (b.property, b.variableName, b.expectedPattern)) }
  else none

/-- The hard-coded-value detail line for one unbound property (lines 1017-1030). -/
def unboundPropDetail (cat sz : String) (prop : TypographyProperty) : String :=
  match prop with
  | .fontFamily =>
    "  - " ++ prop.propName ++
      " has a hard-coded value. Connect it to \"font-family/" ++ cat ++ "\" variable"
  | .fontSize =>
    "  - " ++ prop.propName ++
      " has a hard-coded value. Connect it to \"font-size/" ++ cat ++ "/" ++ sz ++ "\" variable"
  | .lineHeight =>
    "  - " ++ prop.propName ++
      " has a hard-coded value. Connect it to \"line-height/" ++ cat ++ "/" ++ sz ++ "\" variable"
  | .letterSpacing =>
    "  - " ++ prop.propName ++
      " has a hard-coded value. Connect it to \"letter-spacing/" ++ cat ++ "/" ++ sz ++ "\" variable"

/-- `validateTextStyleBindings` from src/core/collection-validator.ts
(the non-throwing body). -/
def validateTextStyleBindings (textStyles : List LintTextStyle)
    (allVariables : List LintVariable) :
    List TextStyleBindingResult × List AuditCheck :=
  let lookupName := variableIdToName allVariables
  if textStyles.length = 0 then ([], [])
  else
    let results := textStyles.filterMap (processTextStyle lookupName)
    let stylesWithIssues := results.filterMap issueOf
    let totalStyles := results.length
    if totalStyles = 0 then (results, [])
    else
      let unboundIssues := stylesWithIssues.filter (fun s => s.unboundProps.length > 0)
      let bindingIssues := stylesWithIssues.filter (fun s => s.incorrectBindings.length > 0)
      let unboundChecks : List AuditCheck :=
        if unboundIssues.length > 0 then
          let issueDescriptions := unboundIssues.map (fun s =>
            match results.find? (fun r => r.styleName = s.styleName) with
            | none => "• \"" ++ s.styleName ++ "\": " ++
                String.intercalate ", " (s.unboundProps.map TypographyProperty.propName)
            | some style =>
              let propsDetail := s.unboundProps.map (unboundPropDetail style.category style.size)
              "• Text style \"" ++ s.styleName ++ "\" (category: " ++ style.category ++
                ", size: " ++ style.size ++ "):\n" ++ String.intercalate "\n" propsDetail)
          [{ check := "Text style variable bindings"
             status := AuditStatus.fail
             suggestion := toString unboundIssues.length ++
               " text style(s) have hard-coded values instead of using theme variables:\n\n" ++
               String.intercalate "\n\n" issueDescriptions ++
               "\n\nTo fix: Select each text style in Figma, then connect the listed properties to their corresponding variables using the variable binding feature." }]
        else []
      let bindingChecks : List AuditCheck :=
        if bindingIssues.length > 0 then
          let issueDescriptions := bindingIssues.map (fun s =>
            let nameParts := jsSplitSlash s.styleName
            let cat := nameParts.headD ""
            let sz := if nameParts.length ≥ 3 then nameParts.getD 1 "" else nameParts.getLastD ""
            let examples := s.incorrectBindings.map (fun b =>
              "  - " ++ b.1.propName ++ " is bound to \"" ++ b.2.1 ++
                "\" but should contain \"/" ++ sz ++ "\" to match this text style's size")
            "• Text style \"" ++ s.styleName ++ "\" (category: " ++ cat ++
              ", size: " ++ sz ++ "):\n" ++ String.intercalate "\n" examples)
          [{ check := "Text style variable naming"
             status := AuditStatus.fail
             suggestion := toString bindingIssues.length ++
               " text style(s) are connected to variables with mismatched size values:\n\n" ++
               String.intercalate "\n\n" issueDescriptions ++
               "\n\nEach text style must be bound to variables that match its size. For example, \"heading/sm/light\" should use \"letter-spacing/heading/sm\", not \"letter-spacing/heading/md\"." }]
        else []
      let passChecks : List AuditCheck :=
        if unboundIssues.length = 0 && bindingIssues.length = 0 && totalStyles > 0 then
          [{ check := "Text style variable bindings"
             status := AuditStatus.pass
             suggestion := "All " ++ toString totalStyles ++
               " text styles use correctly named theme variables for typography properties" }]
        else []
      (results, unboundChecks ++ bindingChecks ++ passChecks)

-- ============================================================================
-- Component variable binding validation (checkNodeForRawValues,
-- collectAllNodes, validateComponentBindings)
-- ============================================================================

/-- A paint: either `{type: 'SOLID', color, visible}` or another paint kind. -/
inductive LintPaint where
  | solid (color : LintRGBA) (visible : Bool)
  | other (ptype : String) (visible : Bool)
deriving DecidableEq, Repr

/-- An effect `{type, visible, color?}`. -/
structure LintEffect where
  type : String
  visible : Bool
  color : Option LintRGBA := none
deriving DecidableEq, Repr

/-- A `{value, unit}` dimension (line height / letter spacing). -/
structure ValueUnit where
  value : Int
  unit : String
deriving DecidableEq, Repr

/-- The `boundVariables` record of a node, restricted to the keys the scanner
reads. Array-valued keys default to `[]` (`|| []` in the source). -/
structure NodeBoundVariables where
  fills : List LintBoundVariable := []
  strokes : List LintBoundVariable := []
  effects : List LintBoundVariable := []
  cornerRadius : Option LintBoundVariable := none
  paddingTop : Option LintBoundVariable := none
  paddingRight : Option LintBoundVariable := none
  paddingBottom : Option LintBoundVariable := none
  paddingLeft : Option LintBoundVariable := none
  itemSpacing : Option LintBoundVariable := none
  fontSize : Option LintBoundVariable := none
  lineHeight : Option LintBoundVariable := none
  letterSpacing : Option LintBoundVariable := none
deriving DecidableEq, Repr

/-- The non-recursive fields of a `LintNode`. Integral scalars are `Int`. -/
structure NodeData where
  id : String
  name : String
  type : String
  boundVariables : NodeBoundVariables := {}
  fills : Option (List LintPaint) := none
  strokes : Option (List LintPaint) := none
  effects : Option (List LintEffect) := none
  cornerRadius : Option Int := none
  layoutMode : Option String := none
  paddingTop : Option Int := none
  paddingRight : Option Int := none
  paddingBottom : Option Int := none
  paddingLeft : Option Int := none
  itemSpacing : Option Int := none
  fontSize : Option Int := none
  lineHeight : Option ValueUnit := none
  letterSpacing : Option ValueUnit := none
deriving DecidableEq, Repr

/-- `LintNode`: a node with its recursive children. -/
inductive LintNode where
  | node (data : NodeData) (children : List LintNode)

/-- The non-recursive fields. -/
def LintNode.data : LintNode → NodeData
  | .node d _ => d

/-- The children list. -/
def LintNode.children : LintNode → List LintNode
  | .node _ cs => cs

/-- `ComponentPropertyCategory`. -/
inductive ComponentPropertyCategory where
  | fill
  | stroke
  | effect
  | spacing
  | cornerRadius
  | typography
deriving DecidableEq, Repr

/-- One raw (unbound) value found on a node. -/
structure RawValue where
  category : ComponentPropertyCategory
  property : String
  value : String
deriving DecidableEq, Repr

/-- `NodeRawValueResult`. -/
structure NodeRawValueResult where
  nodeId : String
  nodeName : String
  nodeType : String
  rawValues : List RawValue
deriving DecidableEq, Repr

/-- `isTransparentColor`: alpha exactly zero. -/
def isTransparentColor (color : LintRGBA) : Bool :=
  color.a = 0

/-- JS `Math.round` over `ℚ` (half rounds toward positive infinity). -/
def jsRoundQ (q : ℚ) : Int :=
  Int.floor (q + 1/2)

/-- JS `(n).toString(16).padStart(2, '0')` for the rounded channel value. -/
def toHexByte (n : Int) : String :=
  let s :=
    if n < 0 then "-" ++ String.mk (Nat.toDigits 16 (-n).toNat)
    else String.mk (Nat.toDigits 16 n.toNat)
  if s.length < 2 then "0" ++ s else s

/-- JS `a.toFixed(2)` over `ℚ` (two decimals, ties rounded up in magnitude
per the ES specification for nonnegative values). -/
def toFixedTwo (q : ℚ) : String :=
  if q < 0 then
    "-" ++
      (let n := (Int.floor (-q * 100 + 1/2)).toNat
       toString (n / 100) ++ "." ++
         (if n % 100 < 10 then "0" ++ toString (n % 100) else toString (n % 100)))
  else
    let n := (Int.floor (q * 100 + 1/2)).toNat
    toString (n / 100) ++ "." ++
      (if n % 100 < 10 then "0" ++ toString (n % 100) else toString (n % 100))

/-- `formatColor`: hex for opaque colors, `rgba(...)` otherwise. -/
def formatColor (color : LintRGBA) : String :=
  let r := jsRoundQ (color.r * 255)
  let g := jsRoundQ (color.g * 255)
  let b := jsRoundQ (color.b * 255)
  if color.a < 1 then
    "rgba(" ++ toString r ++ ", " ++ toString g ++ ", " ++ toString b ++ ", " ++
      toFixedTwo color.a ++ ")"
  else
    "#" ++ toHexByte r ++ toHexByte g ++ toHexByte b

/-- `effect.type.toLowerCase().replace('_', ' ')` (JS `replace` with a string
pattern replaces only the first occurrence). -/
def replaceUnderscoreOnce (s : String) : String :=
  match (splitCharAux '_' s.toList).map String.mk with
  | [] => s
  | [a] => a
  | a :: rest => a ++ " " ++ String.intercalate "_" rest

/-- `bindings[index] && bindings[index].id` for an array of bound variables. -/
def hasIdxBinding (bindings : List LintBoundVariable) (index : Nat) : Bool :=
  match bindings.get? index with
  | some b => b.id ≠ ""
  | none => false

/-- `binding && binding.id` for a scalar bound variable. -/
def hasOptBinding (binding : Option LintBoundVariable) : Bool :=
  match binding with
  | some b => b.id ≠ ""
  | none => false

/-- `node.layoutMode && node.layoutMode !== 'NONE'` (JS truthiness: an absent
or empty layout mode is falsy). -/
def layoutModeActive (layoutMode : Option String) : Bool :=
  match layoutMode with
  | some s => s ≠ "" && s ≠ "NONE"
  | none => false

/-- The fill/stroke paint scan: raw values for `SOLID`, visible,
non-transparent paints with no binding at the matching index. -/
def paintRawValues (category : ComponentPropertyCategory) (property : String)
    (paints : Option (List LintPaint)) (bindings : List LintBoundVariable) :
    List RawValue :=
  match paints with
  | none => []
  | some ps =>
    ps.enum.filterMap (fun ip =>
      match ip.2 with
      | LintPaint.solid color visible =>
        if visible && !hasIdxBinding bindings ip.1 && !isTransparentColor color then
          some { category := category, property := property, value := formatColor color }
        else none
      | LintPaint.other _ _ => none)

/-- One padding-side / gap spacing check. -/
def spacingRawValue (property : String) (value : Option Int)
    (binding : Option LintBoundVariable) : List RawValue :=
  match value with
  | some v =>
    if v > 0 && !hasOptBinding binding then
      [{ category := ComponentPropertyCategory.spacing, property := property,
         value := toString v ++ "px" }]
    else []
  | none => []

/-- The display value of an unbound typography property (lines 1255-1272). -/
def typographyValue (d : NodeData) (prop : String) : String :=
  if prop = "fontSize" then
    match d.fontSize with
    | some n => toString n ++ "px"
    | none => "mixed"
  else if prop = "lineHeight" then
    match d.lineHeight with
    | some lh => if lh.unit = "PERCENT" then toString lh.value ++ "%" else toString lh.value ++ "px"
    | none => "auto"
  else
    match d.letterSpacing with
    | some ls => if ls.unit = "PERCENT" then toString ls.value ++ "%" else toString ls.value ++ "px"
    | none => "0"

/-- The corner-radius check (lines 1202-1212). -/
def cornerRadiusRawValues (cornerRadius : Option Int)
    (binding : Option LintBoundVariable) : List RawValue :=
  match cornerRadius with
  | some v =>
    if v > 0 && !hasOptBinding binding then
      [{ category := ComponentPropertyCategory.cornerRadius, property := "corner radius",
         value := toString v ++ "px" }]
    else []
  | none => []

/-- The auto-layout spacing checks (lines 1215-1245). -/
def spacingRawValues (d : NodeData) : List RawValue :=
  if layoutModeActive d.layoutMode then
    spacingRawValue "paddingTop" d.paddingTop d.boundVariables.paddingTop ++
    spacingRawValue "paddingRight" d.paddingRight d.boundVariables.paddingRight ++
    spacingRawValue "paddingBottom" d.paddingBottom d.boundVariables.paddingBottom ++
    spacingRawValue "paddingLeft" d.paddingLeft d.boundVariables.paddingLeft ++
    spacingRawValue "gap" d.itemSpacing d.boundVariables.itemSpacing
  else []

/-- The typography checks for TEXT nodes (lines 1248-1284). -/
def typographyRawValues (d : NodeData) : List RawValue :=
  if d.type = "TEXT" then
    ["fontSize", "lineHeight", "letterSpacing"].filterMap (fun prop =>
      let binding := if prop = "fontSize" then d.boundVariables.fontSize
        else if prop = "lineHeight" then d.boundVariables.lineHeight
        else d.boundVariables.letterSpacing
      if !hasOptBinding binding then
        let value := typographyValue d prop
        -- auto / zero values are intentional defaults, not omissions
        if value ≠ "auto" && value ≠ "0" && value ≠ "0px" && value ≠ "0%" then
          some { category := ComponentPropertyCategory.typography, property := prop,
                 value := value }
        else none
      else none)
  else []

/-- The effect checks (lines 1287-1306). -/
def effectRawValues (effects : Option (List LintEffect))
    (bindings : List LintBoundVariable) : List RawValue :=
  match effects with
  | none => []
  | some effs =>
    effs.enum.filterMap (fun ie =>
      if ie.2.visible && !hasIdxBinding bindings ie.1 then
        let base := replaceUnderscoreOnce (jsToLower ie.2.type)
        let effectDesc :=
          match ie.2.color with
          | some c =>
            if ie.2.type = "DROP_SHADOW" || ie.2.type = "INNER_SHADOW" then
              base ++ " (" ++ formatColor c ++ ")"
            else base
          | none => base
        some { category := ComponentPropertyCategory.effect,
               property := jsToLower ie.2.type, value := effectDesc }
      else none)

/-- `checkNodeForRawValues` from src/core/collection-validator.ts. -/
def checkNodeForRawValues (d : NodeData) : NodeRawValueResult :=
  { nodeId := d.id
    nodeName := d.name
    nodeType := d.type
    rawValues :=
      paintRawValues ComponentPropertyCategory.fill "fill color"
        d.fills d.boundVariables.fills ++
      paintRawValues ComponentPropertyCategory.stroke "stroke color"
        d.strokes d.boundVariables.strokes ++
      cornerRadiusRawValues d.cornerRadius d.boundVariables.cornerRadius ++
      spacingRawValues d ++
      typographyRawValues d ++
      effectRawValues d.effects d.boundVariables.effects }

mutual

/-- `collectAllNodes`: pre-order traversal, parent before children. -/
def collectAllNodes : LintNode → List LintNode
  | .node d cs => .node d cs :: collectAllNodesList cs

/-- Pre-order traversal of a forest. -/
def collectAllNodesList : List LintNode → List LintNode
  | [] => []
  | n :: ns => collectAllNodes n ++ collectAllNodesList ns

end

/-- The per-category raw-value counters. -/
structure RawValueCounts where
  fill : Nat := 0
  stroke : Nat := 0
  effect : Nat := 0
  spacing : Nat := 0
  cornerRadius : Nat := 0
  typography : Nat := 0
deriving DecidableEq, Repr

/-- `rawValueCounts[rv.category]++`. -/
def bumpCount (c : RawValueCounts) : ComponentPropertyCategory → RawValueCounts
  | .fill => { c with fill := c.fill + 1 }
  | .stroke => { c with stroke := c.stroke + 1 }
  | .effect => { c with effect := c.effect + 1 }
  | .spacing => { c with spacing := c.spacing + 1 }
  | .cornerRadius => { c with cornerRadius := c.cornerRadius + 1 }
  | .typography => { c with typography := c.typography + 1 }

/-- `ComponentBindingValidationResult`. -/
structure ComponentBindingValidationResult where
  componentName : String
  componentId : String
  totalNodes : Nat
  nodesWithRawValues : List NodeRawValueResult
  rawValueCounts : RawValueCounts
  isFullyBound : Bool
deriving DecidableEq, Repr

/-- One iteration of the node loop of `validateComponentBindings`
(lines 1349-1357). -/
def scanStep (acc : List NodeRawValueResult × RawValueCounts) (node : LintNode) :
    List NodeRawValueResult × RawValueCounts :=
  let result := checkNodeForRawValues node.data
  if result.rawValues.length > 0 then
    (acc.1 ++ [result],
     result.rawValues.foldl (fun cs rv => bumpCount cs rv.category) acc.2)
  else acc

/-- `validateComponentBindings` from src/core/collection-validator.ts. -/
def validateComponentBindings (componentNode : LintNode) :
    ComponentBindingValidationResult :=
  let allNodes := collectAllNodes componentNode
  let folded := allNodes.foldl scanStep ([], {})
  { componentName := componentNode.data.name
    componentId := componentNode.data.id
    totalNodes := allNodes.length
    nodesWithRawValues := folded.1
    rawValueCounts := folded.2
    isFullyBound := folded.1.length = 0 }

/-- The number of fill raw values contributed by one node. -/
def nodeFillCount (n : LintNode) : Nat :=
  (checkNodeForRawValues n.data).rawValues.countP
    (fun rv => rv.category = ComponentPropertyCategory.fill)

-- ============================================================================
-- Error-recovery boundaries (the try/catch wrappers of each validator)
-- ============================================================================

/-- A thrown JS value: either an `Error` carrying a message, or any other
value (reported as `Unknown error`). -/
inductive JsThrown where
  | errorWithMessage (message : String)
  | nonError
deriving DecidableEq, Repr

/-- `error instanceof Error ? error.message : 'Unknown error'`. -/
def thrownMessage : JsThrown → String
  | .errorWithMessage m => m
  | .nonError => "Unknown error"

/-- The try/catch boundary of `validateCollectionStructure` (lines 212,
445-457): the body either returns its record or throws; a thrown value is
converted into the synthetic failure record. -/
def runValidateCollectionStructure (requirements : List CollectionRequirement)
    (body : Except JsThrown CollectionStructureValidation) :
    CollectionStructureValidation :=
  match body with
  | .ok r => r
  | .error e =>
    { hasAllCollections := false
      validatedCollections := []
      missingCollections := requirements.map (fun r => r.displayName)
      auditChecks := [{ check := "Variable collection structure"
                        status := AuditStatus.fail
                        suggestion := "Could not validate variable collections: " ++
                          thrownMessage e }] }

/-- The try/catch boundary of `validateTextStylesAgainstVariables`
(lines 656, 779-795). -/
def runValidateTextStylesAgainstVariables
    (body : Except JsThrown (TextStyleValidationResult × List AuditCheck)) :
    TextStyleValidationResult × List AuditCheck :=
  match body with
  | .ok r => r
  | .error e =>
    ({ fontFamilyVariables := []
       textStyleCategories := []
       variablesMissingStyles := []
       stylesMissingVariables := []
       isFullMatch := false },
     [{ check := "Text style validation"
        status := AuditStatus.fail
        suggestion := "Could not validate text styles: " ++ thrownMessage e }])

/-- The try/catch boundary of `validateTextStyleBindings` (lines 857,
1081-1091); `partialResults` is whatever the loop had pushed before the
throw. -/
def runValidateTextStyleBindings (partialResults : List TextStyleBindingResult)
    (body : Except JsThrown (List TextStyleBindingResult × List AuditCheck)) :
    List TextStyleBindingResult × List AuditCheck :=
  match body with
  | .ok r => r
  | .error e =>
    (partialResults,
     [{ check := "Text style variable bindings"
        status := AuditStatus.fail
        suggestion := "Could not validate text style bindings: " ++ thrownMessage e }])

/-- The try/catch boundary of `validateAllComponentBindings` (lines 1386,
1489-1499): the synthetic check here is a `warning`. -/
def runValidateAllComponentBindings
    (partialResults : List ComponentBindingValidationResult)
    (body : Except JsThrown (List ComponentBindingValidationResult × List AuditCheck)) :
    List ComponentBindingValidationResult × List AuditCheck :=
  match body with
  | .ok r => r
  | .error e =>
    (partialResults,
     [{ check := "Component variable bindings"
        status := AuditStatus.warning
        suggestion := "Could not validate component bindings: " ++ thrownMessage e }])

-- ============================================================================
-- Specification-level definitions (used only to state refinement claims;
-- written from the specification's words, not from the source)
-- ============================================================================

mutual

/-- Modelled from the spec: the number of nodes of a component subtree. -/
def spec_nodeCount : LintNode → Nat
  | .node _ cs => 1 + spec_nodeCountList cs

/-- Modelled from the spec: the number of nodes of a forest. -/
def spec_nodeCountList : List LintNode → Nat
  | [] => 0
  | n :: ns => spec_nodeCount n + spec_nodeCountList ns

end

/-- Modelled from the spec: the number of `SOLID` fill paints of one node
that are visible, have alpha not equal to 0, and lack a bound variable id
at the matching index of `boundVariables.fills`. -/
def spec_unboundSolidFillsOnNode (d : NodeData) : Nat :=
  match d.fills with
  | none => 0
  | some ps =>
    (ps.enum.filter (fun ip =>
      match ip.2 with
      | LintPaint.solid color visible =>
        visible && !(color.a = 0) && !hasIdxBinding d.boundVariables.fills ip.1
      | LintPaint.other _ _ => false)).length

mutual

/-- Modelled from the spec: the number of unbound, non-transparent solid
fills in an entire component subtree. -/
def spec_unboundSolidFills : LintNode → Nat
  | .node d cs => spec_unboundSolidFillsOnNode d + spec_unboundSolidFillsList cs

/-- Modelled from the spec: the same count over a forest. -/
def spec_unboundSolidFillsList : List LintNode → Nat
  | [] => 0
  | n :: ns => spec_unboundSolidFills n + spec_unboundSolidFillsList ns

end

-- ============================================================================
-- Theorems
-- ============================================================================

set_option maxRecDepth 8000 in
/--
C1 (amended): `calculateAuditStats` returns
`score = Math.round((passed / total) * 100)` evaluated in IEEE-754 double
arithmetic (`jsScore`), with `passed` the number of pass checks, `failed`
the number of fail checks, and `total` the length of the whole list —
warnings are excluded from the numerator but do count in the denominator.
An empty list scores 100, `[fail]` scores 0, `[pass, fail]` scores 50,
`[pass, warning]` scores 50 (not 100), and 57 pass checks among 200 score
28 — not the 29 of exact rational rounding — because the double
`(57 / 200) * 100` falls slightly below `28.5`.
-/
theorem C1_score_aggregator (checks : List AuditCheck) :
    (calculateAuditStats checks).passed
        = (checks.filter (fun c => c.status = AuditStatus.pass)).length ∧
    (calculateAuditStats checks).failed
        = (checks.filter (fun c => c.status = AuditStatus.fail)).length ∧
    (calculateAuditStats checks).total = checks.length ∧
    (calculateAuditStats checks).score =
      (if checks.length = 0 then 100
       else jsScore
         (checks.filter (fun c => c.status = AuditStatus.pass)).length
         checks.length) ∧
    (calculateAuditStats []).score = 100 ∧
    (calculateAuditStats [⟨"f", AuditStatus.fail, "", none⟩]).score = 0 ∧
    (calculateAuditStats
      [⟨"p", AuditStatus.pass, "", none⟩, ⟨"f", AuditStatus.fail, "", none⟩]).score = 50 ∧
    (calculateAuditStats
      [⟨"p", AuditStatus.pass, "", none⟩, ⟨"w", AuditStatus.warning, "", none⟩]).score = 50 ∧
    (calculateAuditStats
      (List.replicate 57 ⟨"p", AuditStatus.pass, "", none⟩
        ++ List.replicate 143 ⟨"f", AuditStatus.fail, "", none⟩)).score = 28 := by
  refine ⟨?_, ?_, ?_, ?_, by decide, by decide, by decide, by decide, by decide⟩ <;>
    by_cases h : checks.length = 0 <;>
      simp_all [calculateAuditStats, List.length_eq_zero]

/--
C1 counterexample: the claim predicts that a list of one pass check and one
warning check scores 100 (with total 1, warnings excluded from the
denominator); the code scores it 50 with total 2.
-/
theorem C1_counterexample :
    (calculateAuditStats
      [⟨"p", AuditStatus.pass, "", none⟩, ⟨"w", AuditStatus.warning, "", none⟩]).score = 50 ∧
    ¬ (calculateAuditStats
      [⟨"p", AuditStatus.pass, "", none⟩, ⟨"w", AuditStatus.warning, "", none⟩]).score = 100 ∧
    ¬ (calculateAuditStats
      [⟨"p", AuditStatus.pass, "", none⟩, ⟨"w", AuditStatus.warning, "", none⟩]).total = 1 := by
  decide

/--
C4: for a category with a `mirrorCategory` requirement, `missingSizes` is
exactly the set of sub-categories in the source category's set that are
absent from this category's set, `extraSizes` exactly the converse
difference, and `isFullMatch` holds iff both are empty; on the concrete
pipeline with `font-size = {sm, md, lg}` and `line-height = {sm, md}`, the
line-height mirror result is `missingSizes = [lg]`, `extraSizes = []`.
-/
theorem C4_mirror_validation :
    (∀ (name : String) (current source : List String),
      (∀ s, s ∈ (((mirrorValidationOf name current source).mirrorValidation).getD
          ⟨"", [], [], false⟩).missingSizes ↔ s ∈ source ∧ s ∉ current) ∧
      (∀ s, s ∈ (((mirrorValidationOf name current source).mirrorValidation).getD
          ⟨"", [], [], false⟩).extraSizes ↔ s ∈ current ∧ s ∉ source) ∧
      ((((mirrorValidationOf name current source).mirrorValidation).getD
          ⟨"", [], [], false⟩).isFullMatch = true ↔
        (((mirrorValidationOf name current source).mirrorValidation).getD
          ⟨"", [], [], false⟩).missingSizes = [] ∧
        (((mirrorValidationOf name current source).mirrorValidation).getD
          ⟨"", [], [], false⟩).extraSizes = [])) ∧
    (∃ sub ∈ (validateCategories "Theme"
        (DEFAULT_COLLECTION_REQUIREMENTS.getD 2 ⟨fun _ => false, "", []⟩)
        (extractCategories
          [⟨"1", "font-size/sm", "t", []⟩, ⟨"2", "font-size/md", "t", []⟩,
           ⟨"3", "font-size/lg", "t", []⟩, ⟨"4", "line-height/sm", "t", []⟩,
           ⟨"5", "line-height/md", "t", []⟩])).subCategoryResults,
      sub.category = "line-height" ∧
      sub.mirrorValidation = some ⟨"font-size", ["lg"], [], false⟩) := by
  constructor
  · intro name current source
    refine ⟨?_, ?_, ?_⟩ <;>
      simp [mirrorValidationOf, List.mem_filter, List.length_eq_zero]
  · decide

theorem mem_setAdd {l : List String} {x s : String} :
    s ∈ setAdd l x ↔ s ∈ l ∨ s = x := by
  unfold setAdd
  split
  · rename_i hx
    constructor
    · exact fun h => Or.inl h
    · rintro (h | rfl)
      · exact h
      · exact hx
  · simp

theorem find?_catMapAddSub (m : CatMap) (k x k' : String) :
    (catMapAddSub m k x).find? (fun e => e.1 = k') =
      (m.find? (fun e => e.1 = k')).map
        (fun e => if e.1 = k then (e.1, setAdd e.2 x) else e) := by
  induction m with
  | nil => rfl
  | cons e t ih =>
    have hkey : (if e.1 = k then (e.1, setAdd e.2 x) else e).1 = e.1 := by
      split <;> rfl
    simp only [catMapAddSub, List.map_cons] at *
    by_cases h : e.1 = k'
    · rw [List.find?_cons_of_pos _ (by rw [hkey]; simpa using h),
        List.find?_cons_of_pos _ (by simpa using h)]
      simp
    · rw [List.find?_cons_of_neg _ (by rw [hkey]; simpa using h),
        List.find?_cons_of_neg _ (by simpa using h)]
      exact ih

/-- Keys are unchanged by `catMapAddSub`. -/
theorem catMapHas_addSub (m : CatMap) (k x k' : String) :
    catMapHas (catMapAddSub m k x) k' = catMapHas m k' := by
  unfold catMapHas
  rw [find?_catMapAddSub]
  cases m.find? (fun e => e.1 = k') <;> rfl

theorem mem_catMapAddSub (m : CatMap) (k x k' s : String) :
    s ∈ (catMapGet (catMapAddSub m k x) k').getD [] ↔
      s ∈ (catMapGet m k').getD [] ∨
        (k' = k ∧ s = x ∧ catMapHas m k = true) := by
  unfold catMapGet catMapHas
  rw [find?_catMapAddSub]
  cases hf : m.find? (fun e => e.1 = k') with
  | none =>
    simp only [Option.map_none', Option.getD_none, List.not_mem_nil, false_iff,
      false_or]
    rintro ⟨rfl, -, hsome⟩
    rw [hf] at hsome
    simp at hsome
  | some e =>
    have he : e.1 = k' := by
      have := List.find?_some hf
      simpa using this
    by_cases hk : e.1 = k
    · have hkk' : k' = k := he.symm.trans hk
      have hhk : (m.find? (fun e => e.1 = k)).isSome = true := by
        rw [← hkk', hf]
        rfl
      simp [hk, hkk', hhk, mem_setAdd]
    · have hkk' : ¬ k' = k := fun hkc => hk (he.trans hkc)
      simp [hk, hkk']

theorem find?_singleton_key (k k' : String) (v : List String) :
    ([(k, v)] : CatMap).find? (fun e => e.1 = k') =
      if k' = k then some (k, v) else none := by
  by_cases h : k' = k
  · rw [List.find?_cons_of_pos _ (by simpa using h.symm)]
    simp [h]
  · rw [List.find?_cons_of_neg _ (by simpa using fun hc => h hc.symm)]
    simp [h]

theorem catMapHas_ensure (m : CatMap) (k k' : String) :
    catMapHas (catMapEnsure m k) k' = (catMapHas m k' || k' = k) := by
  unfold catMapEnsure
  split
  · rename_i h
    by_cases hk : k' = k
    · subst hk
      simp [h]
    · simp [hk]
  · unfold catMapHas
    rw [List.find?_append, find?_singleton_key]
    cases hfind : m.find? (fun e => e.1 = k') <;>
      by_cases hk : k' = k <;> simp [hk]

theorem mem_catMapEnsure (m : CatMap) (k k' s : String) :
    s ∈ (catMapGet (catMapEnsure m k) k').getD [] ↔
      s ∈ (catMapGet m k').getD [] := by
  unfold catMapEnsure
  split
  · rfl
  · unfold catMapGet
    rw [List.find?_append, find?_singleton_key]
    cases hfind : m.find? (fun e => e.1 = k') <;>
      by_cases hk : k' = k <;> simp [hk]

/-- The inner fold of `extractCategoriesStep` over the tail parts. -/
theorem mem_foldAddSub (l : List String) (m : CatMap) (top k s : String) :
    s ∈ (catMapGet (l.foldl (fun acc p => catMapAddSub acc top (jsNorm p)) m) k).getD [] ↔
      s ∈ (catMapGet m k).getD [] ∨
        (k = top ∧ s ∈ l.map jsNorm ∧ catMapHas m top = true) := by
  induction l generalizing m with
  | nil => simp
  | cons p t ih =>
    simp only [List.foldl_cons]
    rw [ih]
    rw [mem_catMapAddSub, catMapHas_addSub]
    simp only [List.map_cons, List.mem_cons]
    tauto

theorem catMapHas_foldAddSub (l : List String) (m : CatMap) (top k : String) :
    catMapHas (l.foldl (fun acc p => catMapAddSub acc top (jsNorm p)) m) k =
      catMapHas m k := by
  induction l generalizing m with
  | nil => rfl
  | cons p t ih =>
    simp only [List.foldl_cons]
    rw [ih, catMapHas_addSub]

theorem mem_extractCategoriesStep (m : CatMap) (v : LintVariable) (k s : String) :
    s ∈ (catMapGet (extractCategoriesStep m v) k).getD [] ↔
      s ∈ (catMapGet m k).getD [] ∨
        (∃ rest, (jsSplitSlash v.name).map jsNorm = k :: rest ∧ s ∈ rest) := by
  unfold extractCategoriesStep
  cases hsplit : jsSplitSlash v.name with
  | nil => simp [hsplit]
  | cons c rest =>
    rw [mem_foldAddSub, mem_catMapEnsure, catMapHas_ensure]
    simp only [hsplit, List.map_cons]
    constructor
    · rintro (h | ⟨rfl, hs, _⟩)
      · exact Or.inl h
      · exact Or.inr ⟨rest.map jsNorm, rfl, hs⟩
    · rintro (h | ⟨r, hr, hs⟩)
      · exact Or.inl h
      · obtain ⟨hk, hrest⟩ := List.cons.injEq .. ▸ hr
        subst hrest
        exact Or.inr ⟨hk.symm, hs, by simp⟩

theorem catMapHas_extractCategoriesStep (m : CatMap) (v : LintVariable) (k : String) :
    catMapHas (extractCategoriesStep m v) k = true ↔
      catMapHas m k = true ∨
        (∃ rest, (jsSplitSlash v.name).map jsNorm = k :: rest) := by
  unfold extractCategoriesStep
  cases hsplit : jsSplitSlash v.name with
  | nil => simp [hsplit]
  | cons c rest =>
    rw [catMapHas_foldAddSub, catMapHas_ensure]
    simp only [hsplit, List.map_cons, Bool.or_eq_true, decide_eq_true_eq]
    constructor
    · rintro (h | rfl)
      · exact Or.inl h
      · exact Or.inr ⟨rest.map jsNorm, rfl⟩
    · rintro (h | ⟨r, hr⟩)
      · exact Or.inl h
      · obtain ⟨hk, -⟩ := List.cons.injEq .. ▸ hr
        exact Or.inr hk.symm

theorem mem_extractCategories_fold (vs : List LintVariable) (m : CatMap)
    (k s : String) :
    s ∈ (catMapGet (vs.foldl extractCategoriesStep m) k).getD [] ↔
      s ∈ (catMapGet m k).getD [] ∨
        ∃ v ∈ vs, ∃ rest, (jsSplitSlash v.name).map jsNorm = k :: rest ∧ s ∈ rest := by
  induction vs generalizing m with
  | nil => simp
  | cons v t ih =>
    simp only [List.foldl_cons]
    rw [ih, mem_extractCategoriesStep]
    simp only [List.mem_cons]
    constructor
    · rintro (⟨h | h⟩ | ⟨w, hw, h⟩)
      · exact Or.inl h
      · exact Or.inr ⟨v, Or.inl rfl, h⟩
      · exact Or.inr ⟨w, Or.inr hw, h⟩
    · rintro (h | ⟨w, (rfl | hw), h⟩)
      · exact Or.inl (Or.inl h)
      · exact Or.inl (Or.inr h)
      · exact Or.inr ⟨w, hw, h⟩

theorem catMapHas_extractCategories_fold (vs : List LintVariable) (m : CatMap)
    (k : String) :
    catMapHas (vs.foldl extractCategoriesStep m) k = true ↔
      catMapHas m k = true ∨
        ∃ v ∈ vs, ∃ rest, (jsSplitSlash v.name).map jsNorm = k :: rest := by
  induction vs generalizing m with
  | nil => simp
  | cons v t ih =>
    simp only [List.foldl_cons]
    rw [ih, catMapHas_extractCategoriesStep]
    simp only [List.mem_cons]
    constructor
    · rintro (⟨h | h⟩ | ⟨w, hw, h⟩)
      · exact Or.inl h
      · exact Or.inr ⟨v, Or.inl rfl, h⟩
      · exact Or.inr ⟨w, Or.inr hw, h⟩
    · rintro (h | ⟨w, (rfl | hw), h⟩)
      · exact Or.inl (Or.inl h)
      · exact Or.inl (Or.inr h)
      · exact Or.inr ⟨w, hw, h⟩

/--
C5: the category extractor splits each variable name on `/`; the first
segment (normalized) is the category and every later segment lands in that
category's sub-category set: a category key exists iff some variable's name
has it as first segment, and `sub` is in category `cat`'s set iff some
variable contributes it as a later segment. Concretely, `a/b/c` contributes
`b` and `c` to `a`, a variable named `a` alone contributes nothing, and
`a/b/c` with `a/c` yield the set `{b, c}` (duplicates collapse).
-/
theorem C5_category_extraction (vs : List LintVariable) (cat sub : String) :
    (catMapHas (extractCategories vs) cat = true ↔
      ∃ v ∈ vs, ∃ rest, (jsSplitSlash v.name).map jsNorm = cat :: rest) ∧
    (sub ∈ (catMapGet (extractCategories vs) cat).getD [] ↔
      ∃ v ∈ vs, ∃ rest, (jsSplitSlash v.name).map jsNorm = cat :: rest ∧ sub ∈ rest) ∧
    catMapGet (extractCategories
      [⟨"1", "a/b/c", "x", []⟩, ⟨"2", "a/c", "x", []⟩]) "a" = some ["b", "c"] ∧
    catMapGet (extractCategories [⟨"1", "a", "x", []⟩]) "a" = some [] := by
  refine ⟨?_, ?_, by decide, by decide⟩
  · rw [extractCategories, catMapHas_extractCategories_fold]
    simp [catMapHas]
  · rw [extractCategories, mem_extractCategories_fold]
    simp [catMapGet]

/--
C2 (amended): in the text-style synchronization validator, only the
style-to-variable direction is restricted to the allowlist-filtered relevant
categories. A font-family variable `v` is unmatched iff no text-style
category `c` at all (relevant or not) satisfies
`c.includes(v) || v.includes(c)`; a relevant text-style category `s` is
unmatched iff no font-family variable `v` satisfies
`s.includes(v) || v.includes(s)`; a pass check is emitted iff both unmatched
sets are empty and at least one font-family variable exists.
-/
theorem C2_sync_bidirectional (collections : List LintVariableCollection)
    (allVariables : List LintVariable) (textStyles : List LintTextStyle) :
    (∀ v, v ∈ (validateTextStylesAgainstVariables collections allVariables
        textStyles).1.variablesMissingStyles ↔
      v ∈ fontFamilyVariablesOf collections allVariables ∧
        ∀ c ∈ textStyleCategoriesOf textStyles,
          ¬(jsIncludes c v = true ∨ jsIncludes v c = true)) ∧
    (∀ s, s ∈ (validateTextStylesAgainstVariables collections allVariables
        textStyles).1.stylesMissingVariables ↔
      s ∈ relevantTextCategories (textStyleCategoriesOf textStyles) ∧
        ∀ v ∈ fontFamilyVariablesOf collections allVariables,
          ¬(jsIncludes s v = true ∨ jsIncludes v s = true)) ∧
    ((∃ c ∈ (validateTextStylesAgainstVariables collections allVariables
        textStyles).2, c.status = AuditStatus.pass) ↔
      (validateTextStylesAgainstVariables collections allVariables
        textStyles).1.variablesMissingStyles = [] ∧
      (validateTextStylesAgainstVariables collections allVariables
        textStyles).1.stylesMissingVariables = [] ∧
      fontFamilyVariablesOf collections allVariables ≠ []) := by
  refine ⟨?_, ?_, ?_⟩
  · intro v
    simp [validateTextStylesAgainstVariables, variablesMissingStylesOf,
      List.mem_filter, not_or]
  · intro s
    simp [validateTextStylesAgainstVariables, stylesMissingVariablesOf,
      List.mem_filter, not_or]
  · simp only [validateTextStylesAgainstVariables]
    by_cases h1 : (fontFamilyVariablesOf collections allVariables).length = 0 <;>
      by_cases h2 : textStyles.length = 0
    · have hff := List.length_eq_zero.mp h1
      simp [h1, h2, hff]
    · have hff := List.length_eq_zero.mp h1
      have h2' : textStyles.length > 0 := Nat.pos_of_ne_zero h2
      simp [h1, h2, h2', hff]
    · have hts := List.length_eq_zero.mp h2
      have hff : fontFamilyVariablesOf collections allVariables ≠ [] :=
        fun h => h1 (by rw [h]; rfl)
      subst hts
      have h1' : 0 < (fontFamilyVariablesOf collections allVariables).length :=
        Nat.pos_of_ne_zero h1
      have hvms : variablesMissingStylesOf
          (fontFamilyVariablesOf collections allVariables)
          (textStyleCategoriesOf []) =
            fontFamilyVariablesOf collections allVariables := by
        simp [variablesMissingStylesOf, textStyleCategoriesOf]
      simp [h1, h1', hvms, hff]
    · have h1' : (fontFamilyVariablesOf collections allVariables).length > 0 :=
        Nat.pos_of_ne_zero h1
      have h2' : textStyles.length > 0 := Nat.pos_of_ne_zero h2
      have hff : fontFamilyVariablesOf collections allVariables ≠ [] :=
        fun h => h1 (by rw [h]; rfl)
      simp only [h1, h2, h1', h2', if_false, if_true, gt_iff_lt,
        Nat.lt_irrefl, not_false_iff]
      by_cases hv : (variablesMissingStylesOf
          (fontFamilyVariablesOf collections allVariables)
          (textStyleCategoriesOf textStyles)).length > 0 <;>
        by_cases hs : (stylesMissingVariablesOf
            (fontFamilyVariablesOf collections allVariables)
            (textStyleCategoriesOf textStyles)).length > 0 <;>
          simp_all [List.length_eq_zero, List.length_pos_iff_ne_nil, hff]

/--
C8 (amended): when neither font-family variables nor text styles exist the
validator emits no check at all (an empty check list, not a warning); when
exactly one of the two sides has data it emits exactly one warning-status
check.
-/
theorem C8_degenerate_cases (collections : List LintVariableCollection)
    (allVariables : List LintVariable) (textStyles : List LintTextStyle) :
    (fontFamilyVariablesOf collections allVariables = [] ∧ textStyles = [] →
      (validateTextStylesAgainstVariables collections allVariables textStyles).2 = []) ∧
    (fontFamilyVariablesOf collections allVariables = [] ∧ textStyles ≠ [] →
      (validateTextStylesAgainstVariables collections allVariables
        textStyles).2.length = 1 ∧
      ∀ c ∈ (validateTextStylesAgainstVariables collections allVariables
        textStyles).2, c.status = AuditStatus.warning) ∧
    (fontFamilyVariablesOf collections allVariables ≠ [] ∧ textStyles = [] →
      (validateTextStylesAgainstVariables collections allVariables
        textStyles).2.length = 1 ∧
      ∀ c ∈ (validateTextStylesAgainstVariables collections allVariables
        textStyles).2, c.status = AuditStatus.warning) := by
  refine ⟨?_, ?_, ?_⟩
  · rintro ⟨hff, hts⟩
    simp [validateTextStylesAgainstVariables, hff, hts]
  · rintro ⟨hff, hts⟩
    have h2 : textStyles.length > 0 := List.length_pos_iff_ne_nil.mpr hts
    constructor <;>
      simp [validateTextStylesAgainstVariables, hff, h2, Nat.ne_of_gt h2]
  · rintro ⟨hff, hts⟩
    have h1 : (fontFamilyVariablesOf collections allVariables).length ≠ 0 :=
      fun h => hff (List.length_eq_zero.mp h)
    constructor <;>
      simp [validateTextStylesAgainstVariables, hts, h1,
        Nat.pos_of_ne_zero h1]

/--
C8 counterexample: with no variables and no text styles at all, the
validator returns the empty check list — there is no warning check, contrary
to the claim that the neither-side case is reported as a warning.
-/
theorem C8_counterexample :
    (validateTextStylesAgainstVariables [] [] []).2 = [] ∧
    ¬ ∃ c ∈ (validateTextStylesAgainstVariables [] [] []).2,
        c.status = AuditStatus.warning := by
  decide

/--
C2 counterexample: with one font-family variable `foo` and one text style
`foo-bar` (not a relevant typography category), the relevant set is empty,
so under the claim `foo` should be unmatched and reported as `fail`; the
code instead matches `foo` against the irrelevant category `foo-bar`,
reports nothing missing, and emits a single pass check.
-/
theorem C2_counterexample :
    (relevantTextCategories (textStyleCategoriesOf [⟨"foo-bar", {}⟩]) = []) ∧
    (validateTextStylesAgainstVariables [⟨"t", "Theme"⟩]
      [⟨"v", "font-family/foo", "t", []⟩]
      [⟨"foo-bar", {}⟩]).1.fontFamilyVariables = ["foo"] ∧
    (validateTextStylesAgainstVariables [⟨"t", "Theme"⟩]
      [⟨"v", "font-family/foo", "t", []⟩]
      [⟨"foo-bar", {}⟩]).1.variablesMissingStyles = [] ∧
    (∃ c ∈ (validateTextStylesAgainstVariables [⟨"t", "Theme"⟩]
      [⟨"v", "font-family/foo", "t", []⟩]
      [⟨"foo-bar", {}⟩]).2, c.status = AuditStatus.pass) ∧
    ¬ (∃ c ∈ (validateTextStylesAgainstVariables [⟨"t", "Theme"⟩]
      [⟨"v", "font-family/foo", "t", []⟩]
      [⟨"foo-bar", {}⟩]).2, c.status = AuditStatus.fail) := by
  decide

theorem jsStartsWith_append (a b : String) : jsStartsWith (a ++ b) a = true := by
  unfold jsStartsWith
  refine decide_eq_true ?_
  show a.toList <+: (a ++ b).toList
  have h : (a ++ b).toList = a.toList ++ b.toList := by
    simp [String.toList]
  rw [h]
  exact List.prefix_append _ _

/-- Every audit check pushed for one sub-category result is named
`displayName ++ " " ++ ...`. -/
theorem checksForSubResult_check_prefix (displayName collectionName : String)
    (subResult : SubCategoryResult) :
    ∀ c ∈ checksForSubResult displayName collectionName subResult,
      ∃ t, c.check = displayName ++ " " ++ t := by
  intro c hc
  unfold checksForSubResult at hc
  repeat'
    first
      | exact absurd hc (List.not_mem_nil c)
      | (rw [List.mem_singleton.mp hc]; exact ⟨_, rfl⟩)
      | (rcases List.mem_append.mp hc with hc | hc)
      | (simp only at hc)
      | split at hc

/-- Every audit check pushed while processing one requirement is named
`displayName ++ " " ++ ...`. -/
theorem checksForRequirement_check_prefix (collections : List LintVariableCollection)
    (allVariables : List LintVariable) (tc : Bool) (req : CollectionRequirement) :
    ∀ c ∈ (checksForRequirement collections allVariables tc req).2,
      ∃ t, c.check = req.displayName ++ " " ++ t := by
  intro c hc
  unfold checksForRequirement at hc
  repeat'
    first
      | exact absurd hc (List.not_mem_nil c)
      | (rw [List.mem_singleton.mp hc]; exact ⟨_, rfl⟩)
      | (rcases List.mem_append.mp hc with hc | hc)
      | (simp only at hc)
      | split at hc
  all_goals
    simp only [List.mem_flatten, List.mem_map] at hc
  all_goals
    obtain ⟨l, ⟨sr, hsr, rfl⟩, hcl⟩ := hc
  all_goals
    exact checksForSubResult_check_prefix _ _ _ c hcl

/-- Every audit check of `validateCollectionStructure` is the summary check
or comes from some requirement's iteration. -/
theorem validateCollectionStructure_auditChecks_cases
    (collections : List LintVariableCollection) (allVariables : List LintVariable)
    (requirements : List CollectionRequirement) :
    ∀ c ∈ (validateCollectionStructure collections allVariables
        requirements).auditChecks,
      c.check = "Variable collection structure" ∨
      ∃ req ∈ requirements, c ∈ (checksForRequirement collections allVariables
        (themeConnectedToPrimitivesOf collections allVariables) req).2 := by
  intro c hc
  unfold validateCollectionStructure at hc
  simp only at hc
  split at hc
  · rcases List.mem_cons.mp hc with rfl | hc
    · exact Or.inl rfl
    · simp only [List.mem_flatten, List.mem_map] at hc
      obtain ⟨l, ⟨req, hreq, rfl⟩, hcl⟩ := hc
      exact Or.inr ⟨req, hreq, hcl⟩
  · simp only [List.mem_flatten, List.mem_map] at hc
    obtain ⟨l, ⟨req, hreq, rfl⟩, hcl⟩ := hc
    exact Or.inr ⟨req, hreq, hcl⟩

/-- Conversely, every check of a listed requirement's iteration appears in
the final audit-check list. -/
theorem validateCollectionStructure_mem_of_req
    (collections : List LintVariableCollection) (allVariables : List LintVariable)
    (requirements : List CollectionRequirement) (req : CollectionRequirement)
    (hreq : req ∈ requirements) :
    ∀ c ∈ (checksForRequirement collections allVariables
        (themeConnectedToPrimitivesOf collections allVariables) req).2,
      c ∈ (validateCollectionStructure collections allVariables
        requirements).auditChecks := by
  intro c hc
  have hflat : c ∈ (requirements.map
      (fun r => (checksForRequirement collections allVariables
        (themeConnectedToPrimitivesOf collections allVariables) r).2)).flatten :=
    List.mem_flatten.mpr ⟨_, List.mem_map_of_mem _ hreq, hc⟩
  unfold validateCollectionStructure
  simp only
  split
  · exact List.mem_cons_of_mem _ hflat
  · exact hflat

/-- If the Theme side has no variables, the alias count is zero. -/
theorem themeAliasStats_len_zero (collections : List LintVariableCollection)
    (allVariables : List LintVariable)
    (h : (themeAliasStats collections allVariables).2 = 0) :
    (themeAliasStats collections allVariables).1 = 0 := by
  unfold themeAliasStats at *
  rcases hfp : collections.find? (fun c => matchesPrimitives c.name) with _ | p <;>
    rcases hft : collections.find? (fun c => matchesTheme c.name) with _ | t <;>
      rw [hfp, hft] at h ⊢
  have hnil : List.filter
      (fun v => decide (v.variableCollectionId = t.id)) allVariables = [] := by
    rw [← List.length_eq_zero]
    simpa using h
  simp [hnil]

/--
C3: whenever a Primitives-matching and a Theme-matching collection exist,
no Brand-matching collection exists, and the fraction of Theme per-mode
values that are aliases into Primitives variable ids is at least 0.10 of
the Theme variable count, the Brand requirement of the default schema is
reported as a waived pass check named `Brand collection` — and no fail
check with that name is emitted.
-/
theorem C3_brand_waiver (collections : List LintVariableCollection)
    (allVariables : List LintVariable)
    (hp : (collections.find? (fun c => matchesPrimitives c.name)).isSome = true)
    (ht : (collections.find? (fun c => matchesTheme c.name)).isSome = true)
    (hb : ∀ c ∈ collections, matchesBrand c.name = false)
    (hfrac : (1 : ℚ)/10 ≤ ((themeAliasStats collections allVariables).1 : ℚ) /
      ((themeAliasStats collections allVariables).2 : ℚ)) :
    (∃ c ∈ (validateCollectionStructure collections allVariables
        DEFAULT_COLLECTION_REQUIREMENTS).auditChecks,
      c.check = "Brand collection" ∧ c.status = AuditStatus.pass) ∧
    (∀ c ∈ (validateCollectionStructure collections allVariables
        DEFAULT_COLLECTION_REQUIREMENTS).auditChecks,
      c.check = "Brand collection" → c.status = AuditStatus.pass) := by
  -- the Nat form of the ≥ 0.10 alias-fraction condition
  have hlen : (themeAliasStats collections allVariables).2 ≠ 0 := by
    intro h0
    have h1 := themeAliasStats_len_zero collections allVariables h0
    rw [h0, h1] at hfrac
    norm_num at hfrac
  have hlpos : (0 : ℚ) < ((themeAliasStats collections allVariables).2 : ℚ) := by
    exact_mod_cast Nat.pos_of_ne_zero hlen
  have hnat : (themeAliasStats collections allVariables).2 ≤
      10 * (themeAliasStats collections allVariables).1 := by
    have h10 : ((themeAliasStats collections allVariables).2 : ℚ) ≤
        10 * ((themeAliasStats collections allVariables).1 : ℚ) := by
      rw [div_le_div_iff₀ (by norm_num) hlpos] at hfrac
      linarith
    exact_mod_cast h10
  have hapos : 0 < (themeAliasStats collections allVariables).1 := by
    rcases Nat.eq_zero_or_pos (themeAliasStats collections allVariables).1 with h | h
    · rw [h] at hnat
      simp at hnat
      exact absurd hnat hlen
    · exact h
  -- the connection flag computes to true
  obtain ⟨p, hpeq⟩ := Option.isSome_iff_exists.mp hp
  obtain ⟨t, hteq⟩ := Option.isSome_iff_exists.mp ht
  have hbeq : collections.find? (fun c => matchesBrand c.name) = none :=
    List.find?_eq_none.mpr (fun c hc => by simp [hb c hc])
  have hconn : themeConnectedToPrimitivesOf collections allVariables = true := by
    unfold themeConnectedToPrimitivesOf
    rw [hpeq, hteq, hbeq]
    simp only [Bool.and_eq_true, decide_eq_true_eq]
    exact ⟨hapos, hnat⟩
  -- the Brand requirement contributes exactly the waiver pass check
  have hbrand : (checksForRequirement collections allVariables
      (themeConnectedToPrimitivesOf collections allVariables)
      (DEFAULT_COLLECTION_REQUIREMENTS.getD 1 ⟨fun _ => false, "", []⟩)).2 =
      [{ check := "Brand" ++ " " ++ "collection"
         status := AuditStatus.pass
         suggestion := "Brand collection not required - Theme variables are connected directly to Primitives. This is a valid design token architecture." }] := by
    unfold checksForRequirement
    rw [show (DEFAULT_COLLECTION_REQUIREMENTS.getD 1
      ⟨fun _ => false, "", []⟩).namePattern = matchesBrand from rfl, hbeq, hconn]
    rfl
  rw [hconn] at hbrand
  have hbrandmem : (DEFAULT_COLLECTION_REQUIREMENTS.getD 1 ⟨fun _ => false, "", []⟩)
      ∈ DEFAULT_COLLECTION_REQUIREMENTS :=
    List.mem_cons_of_mem _ (List.mem_cons_self _ _)
  constructor
  · have hmem := validateCollectionStructure_mem_of_req collections allVariables
      DEFAULT_COLLECTION_REQUIREMENTS _ hbrandmem
    rw [hconn, hbrand] at hmem
    exact ⟨_, hmem _ (List.mem_singleton.mpr rfl), by decide, rfl⟩
  · intro c hc hname
    rcases validateCollectionStructure_auditChecks_cases collections allVariables
      DEFAULT_COLLECTION_REQUIREMENTS c hc with hsum | ⟨req, hreq, hcreq⟩
    · rw [hname] at hsum
      exact absurd hsum (by decide)
    · rw [hconn] at hcreq
      have hreq3 : req = (DEFAULT_COLLECTION_REQUIREMENTS.getD 0 ⟨fun _ => false, "", []⟩) ∨
          req = (DEFAULT_COLLECTION_REQUIREMENTS.getD 1 ⟨fun _ => false, "", []⟩) ∨
          req = (DEFAULT_COLLECTION_REQUIREMENTS.getD 2 ⟨fun _ => false, "", []⟩) := by
        simpa [DEFAULT_COLLECTION_REQUIREMENTS, List.mem_cons] using hreq
      rcases hreq3 with rfl | rfl | rfl
      · obtain ⟨t, hpre⟩ := checksForRequirement_check_prefix collections allVariables
          true _ c hcreq
        have hsw : jsStartsWith c.check
            ((DEFAULT_COLLECTION_REQUIREMENTS.getD 0
              ⟨fun _ => false, "", []⟩).displayName ++ " ") = true := by
          rw [hpre]
          exact jsStartsWith_append _ t
        rw [hname] at hsw
        exact absurd hsw (by decide)
      · rw [hbrand] at hcreq
        rw [List.mem_singleton.mp hcreq]
      · obtain ⟨t, hpre⟩ := checksForRequirement_check_prefix collections allVariables
          true _ c hcreq
        have hsw : jsStartsWith c.check
            ((DEFAULT_COLLECTION_REQUIREMENTS.getD 2
              ⟨fun _ => false, "", []⟩).displayName ++ " ") = true := by
          rw [hpre]
          exact jsStartsWith_append _ t
        rw [hname] at hsw
        exact absurd hsw (by decide)

/--
C3 witness: a concrete Primitives + Theme pair where the single Theme
variable aliases the single Primitives variable (fraction 1 ≥ 0.10) and no
Brand collection exists: the Brand requirement is reported as a pass.
-/
theorem C3_brand_waiver_witness :
    (∃ c ∈ (validateCollectionStructure [⟨"p", "Primitives"⟩, ⟨"t", "Theme"⟩]
        [⟨"v1", "color/red", "p", []⟩, ⟨"v2", "colors/bg/1", "t", [("m", .alias "v1")]⟩]
        DEFAULT_COLLECTION_REQUIREMENTS).auditChecks,
      c.check = "Brand collection" ∧ c.status = AuditStatus.pass) ∧
    (∀ c ∈ (validateCollectionStructure [⟨"p", "Primitives"⟩, ⟨"t", "Theme"⟩]
        [⟨"v1", "color/red", "p", []⟩, ⟨"v2", "colors/bg/1", "t", [("m", .alias "v1")]⟩]
        DEFAULT_COLLECTION_REQUIREMENTS).auditChecks,
      c.check = "Brand collection" → c.status = AuditStatus.pass) := by
  refine C3_brand_waiver _ _ (by decide) (by decide) (by decide) ?_
  have hstats : themeAliasStats [⟨"p", "Primitives"⟩, ⟨"t", "Theme"⟩]
      [⟨"v1", "color/red", "p", []⟩, ⟨"v2", "colors/bg/1", "t", [("m", .alias "v1")]⟩]
      = (1, 1) := by decide
  rw [hstats]
  norm_num

/-- The property loop splits the property list into bound entries and
unbound properties, in order. -/
theorem bindStep_fold (lookupName : String → Option String)
    (bv : TextStyleBoundVariables) (category size : String)
    (props : List TypographyProperty)
    (b₀ : List BoundPropertyResult) (u₀ : List TypographyProperty) :
    props.foldl (bindStep lookupName bv category size) (b₀, u₀) =
      (b₀ ++ (props.filter (propIsBound bv)).map
        (boundEntryFor lookupName bv category size),
       u₀ ++ props.filter (fun p => !propIsBound bv p)) := by
  induction props generalizing b₀ u₀ with
  | nil => simp
  | cons p t ih =>
    by_cases hp : propIsBound bv p
    · simp only [List.foldl_cons, bindStep, hp, if_pos, List.filter_cons_of_pos,
        List.map_cons]
      rw [ih]
      simp [hp]
    · simp only [List.foldl_cons, bindStep, hp, if_neg, List.filter_cons_of_neg,
        List.map_cons]
      rw [ih]
      simp [hp]

/-- The `boundProperties` / `unboundProperties` of a processed style. -/
theorem processTextStyle_eq_some (lookupName : String → Option String)
    (style : LintTextStyle)
    (h : ¬ ((jsSplitSlash style.name).map jsNorm).length < 2) :
    processTextStyle lookupName style = some
      { styleName := style.name
        category := ((jsSplitSlash style.name).map jsNorm).headD ""
        size := if ((jsSplitSlash style.name).map jsNorm).length ≥ 3
          then ((jsSplitSlash style.name).map jsNorm).getD 1 ""
          else ((jsSplitSlash style.name).map jsNorm).getLastD ""
        boundProperties := (TYPOGRAPHY_PROPERTIES.filter
          (propIsBound style.boundVariables)).map
            (boundEntryFor lookupName style.boundVariables
              (((jsSplitSlash style.name).map jsNorm).headD "")
              (if ((jsSplitSlash style.name).map jsNorm).length ≥ 3
                then ((jsSplitSlash style.name).map jsNorm).getD 1 ""
                else ((jsSplitSlash style.name).map jsNorm).getLastD ""))
        unboundProperties := TYPOGRAPHY_PROPERTIES.filter
          (fun p => !propIsBound style.boundVariables p)
        isFullyBound := (TYPOGRAPHY_PROPERTIES.filter
          (fun p => !propIsBound style.boundVariables p)).length = 0
        hasCorrectBindings := ((TYPOGRAPHY_PROPERTIES.filter
          (propIsBound style.boundVariables)).map
            (boundEntryFor lookupName style.boundVariables
              (((jsSplitSlash style.name).map jsNorm).headD "")
              (if ((jsSplitSlash style.name).map jsNorm).length ≥ 3
                then ((jsSplitSlash style.name).map jsNorm).getD 1 ""
                else ((jsSplitSlash style.name).map jsNorm).getLastD ""))).all
            (fun b => b.isCorrectBinding) } := by
  unfold processTextStyle
  rw [if_neg h]
  simp only [bindStep_fold, List.nil_append]

/--
C6: for a text style whose normalized name has at least two slash-delimited
segments, the binding validator takes the first segment as the category and,
when three or more segments exist, the second segment as the size, else the
last; a bound `fontSize` entry is a correct binding iff the resolved
variable name contains `font-size` and either ends with the size or
contains `/` followed by the size; names with fewer than two segments are
skipped; and the validator's result list is exactly the skipping map of the
per-style parser over all styles.
-/
theorem C6_text_style_binding_parse (allVariables : List LintVariable)
    (style : LintTextStyle) :
    (((jsSplitSlash style.name).map jsNorm).length < 2 →
      processTextStyle (variableIdToName allVariables) style = none) ∧
    (∀ r, processTextStyle (variableIdToName allVariables) style = some r →
      r.category = ((jsSplitSlash style.name).map jsNorm).headD "" ∧
      r.size = (if ((jsSplitSlash style.name).map jsNorm).length ≥ 3
        then ((jsSplitSlash style.name).map jsNorm).getD 1 ""
        else ((jsSplitSlash style.name).map jsNorm).getLastD "") ∧
      (∀ b ∈ r.boundProperties, b.property = TypographyProperty.fontSize →
        (b.isCorrectBinding = true ↔
          (jsIncludes b.variableName "font-size" = true ∧
            (jsEndsWith b.variableName r.size = true ∨
             jsIncludes b.variableName ("/" ++ r.size) = true)))) ∧
      (∀ bind, style.boundVariables.fontSize = some bind → bind.id ≠ "" →
        ∃ b ∈ r.boundProperties, b.property = TypographyProperty.fontSize ∧
          b.variableName = (variableIdToName allVariables bind.id).getD "unknown")) ∧
    (∀ textStyles : List LintTextStyle,
      (validateTextStyleBindings textStyles allVariables).1 =
        textStyles.filterMap (processTextStyle (variableIdToName allVariables))) := by
  refine ⟨?_, ?_, ?_⟩
  · intro h
    unfold processTextStyle
    rw [if_pos h]
  · intro r hr
    by_cases h : ((jsSplitSlash style.name).map jsNorm).length < 2
    · rw [(by unfold processTextStyle; rw [if_pos h] :
        processTextStyle (variableIdToName allVariables) style = none)] at hr
      exact Option.noConfusion hr
    · rw [processTextStyle_eq_some _ _ h] at hr
      obtain rfl := Option.some.injEq .. ▸ hr
      refine ⟨rfl, rfl, ?_, ?_⟩
      · intro b hb hbp
        simp only [List.mem_map] at hb
        obtain ⟨p, hp, rfl⟩ := hb
        have hp2 : p = TypographyProperty.fontSize := hbp
        subst hp2
        simp only [boundEntryFor, bindingPatternFor]
        constructor
        · intro hand
          rw [Bool.and_eq_true] at hand
          rcases hand with ⟨h1, h2⟩
          rw [Bool.or_eq_true] at h2
          exact ⟨h1, h2⟩
        · rintro ⟨h1, h2⟩
          rw [Bool.and_eq_true, Bool.or_eq_true]
          exact ⟨h1, h2⟩
      · intro bind hbind hbid
        have hbound : propIsBound style.boundVariables TypographyProperty.fontSize = true := by
          unfold propIsBound TextStyleBoundVariables.get
          rw [hbind]
          simpa using hbid
        have hmem : TypographyProperty.fontSize ∈ TYPOGRAPHY_PROPERTIES.filter
            (propIsBound style.boundVariables) :=
          List.mem_filter.mpr ⟨by decide, hbound⟩
        refine ⟨_, List.mem_map_of_mem _ hmem, rfl, ?_⟩
        show (boundEntryFor (variableIdToName allVariables) style.boundVariables
          _ _ TypographyProperty.fontSize).variableName = _
        simp only [boundEntryFor, TextStyleBoundVariables.get, hbind, Option.getD_some]
  · intro textStyles
    unfold validateTextStyleBindings
    by_cases h0 : textStyles.length = 0
    · rw [if_pos h0]
      rw [List.length_eq_zero.mp h0]
      rfl
    · rw [if_neg h0]
      simp only
      split <;> rfl

/-- The resolved name `unknown` never satisfies a binding pattern: every
pattern first requires a `font-*` substring that `unknown` lacks. -/
theorem bindingPatternFor_unknown (prop : TypographyProperty) (category size : String) :
    (bindingPatternFor prop category size "unknown").2 = false := by
  have h1 : jsIncludes "unknown" "font-family" = false := by decide
  have h2 : jsIncludes "unknown" "font-size" = false := by decide
  have h3 : jsIncludes "unknown" "letter-spacing" = false := by decide
  have h4 : jsIncludes "unknown" "line-height" = false := by decide
  cases prop <;> simp [bindingPatternFor, h1, h2, h3, h4]

/-- Every typography property is in the iterated list. -/
theorem mem_TYPOGRAPHY_PROPERTIES (prop : TypographyProperty) :
    prop ∈ TYPOGRAPHY_PROPERTIES := by
  cases prop <;> decide

/--
C10: a text-style property bound to a variable id that matches no supplied
variable is still classified as bound — never added to `unboundProperties` —
with resolved variable name the literal `unknown` and an incorrect binding,
so it lands in the incorrectly-named-binding bucket of the style's issue
entry rather than the hard-coded-value bucket.
-/
theorem C10_dangling_reference (allVariables : List LintVariable)
    (style : LintTextStyle) (prop : TypographyProperty) (bind : LintBoundVariable)
    (hget : style.boundVariables.get prop = some bind)
    (hid : bind.id ≠ "")
    (hdangling : ∀ v ∈ allVariables, v.id ≠ bind.id)
    (hparts : ¬ ((jsSplitSlash style.name).map jsNorm).length < 2) :
    prop ∉ ((processTextStyle (variableIdToName allVariables) style).getD
      ⟨"", "", "", [], [], false, false⟩).unboundProperties ∧
    (∃ b ∈ ((processTextStyle (variableIdToName allVariables) style).getD
        ⟨"", "", "", [], [], false, false⟩).boundProperties,
      b.property = prop ∧ b.variableName = "unknown" ∧ b.isCorrectBinding = false) ∧
    (∃ issue, issueOf ((processTextStyle (variableIdToName allVariables) style).getD
        ⟨"", "", "", [], [], false, false⟩) = some issue ∧
      prop ∉ issue.unboundProps ∧
      ∃ e ∈ issue.incorrectBindings, e.1 = prop ∧ e.2.1 = "unknown") := by
  have hlookup : variableIdToName allVariables bind.id = none := by
    unfold variableIdToName
    rw [List.filter_eq_nil_iff.mpr (by simpa using hdangling)]
    rfl
  have hbound : propIsBound style.boundVariables prop = true := by
    unfold propIsBound
    rw [hget]
    simpa using hid
  have hentry : boundEntryFor (variableIdToName allVariables) style.boundVariables
      (((jsSplitSlash style.name).map jsNorm).headD "")
      (if ((jsSplitSlash style.name).map jsNorm).length ≥ 3
        then ((jsSplitSlash style.name).map jsNorm).getD 1 ""
        else ((jsSplitSlash style.name).map jsNorm).getLastD "") prop =
      { property := prop, variableName := "unknown"
        isCorrectBinding := false
        expectedPattern := (bindingPatternFor prop
          (((jsSplitSlash style.name).map jsNorm).headD "")
          (if ((jsSplitSlash style.name).map jsNorm).length ≥ 3
            then ((jsSplitSlash style.name).map jsNorm).getD 1 ""
            else ((jsSplitSlash style.name).map jsNorm).getLastD "") "unknown").1 } := by
    unfold boundEntryFor
    rw [hget]
    simp [hlookup, bindingPatternFor_unknown]
  rw [processTextStyle_eq_some _ _ hparts, Option.getD_some]
  have hmemfilter : prop ∈ TYPOGRAPHY_PROPERTIES.filter
      (propIsBound style.boundVariables) :=
    List.mem_filter.mpr ⟨mem_TYPOGRAPHY_PROPERTIES prop, hbound⟩
  have hbmem : boundEntryFor (variableIdToName allVariables) style.boundVariables
      (((jsSplitSlash style.name).map jsNorm).headD "")
      (if ((jsSplitSlash style.name).map jsNorm).length ≥ 3
        then ((jsSplitSlash style.name).map jsNorm).getD 1 ""
        else ((jsSplitSlash style.name).map jsNorm).getLastD "") prop ∈
      (TYPOGRAPHY_PROPERTIES.filter (propIsBound style.boundVariables)).map
        (boundEntryFor (variableIdToName allVariables) style.boundVariables
          (((jsSplitSlash style.name).map jsNorm).headD "")
          (if ((jsSplitSlash style.name).map jsNorm).length ≥ 3
            then ((jsSplitSlash style.name).map jsNorm).getD 1 ""
            else ((jsSplitSlash style.name).map jsNorm).getLastD "")) :=
    List.mem_map_of_mem _ hmemfilter
  have hnotunbound : prop ∉ TYPOGRAPHY_PROPERTIES.filter
      (fun p => !propIsBound style.boundVariables p) := by
    simp [List.mem_filter, hbound]
  refine ⟨hnotunbound, ⟨_, hbmem, ?_, ?_, ?_⟩, ?_⟩
  · rfl
  · rw [hentry]
  · rw [hentry]
  · have hallfalse : ((TYPOGRAPHY_PROPERTIES.filter
        (propIsBound style.boundVariables)).map
          (boundEntryFor (variableIdToName allVariables) style.boundVariables
            (((jsSplitSlash style.name).map jsNorm).headD "")
            (if ((jsSplitSlash style.name).map jsNorm).length ≥ 3
              then ((jsSplitSlash style.name).map jsNorm).getD 1 ""
              else ((jsSplitSlash style.name).map jsNorm).getLastD ""))).all
        (fun b => b.isCorrectBinding) = false := by
      rw [List.all_eq_false]
      exact ⟨_, hbmem, by rw [hentry]; simp⟩
    unfold issueOf
    rw [if_pos (Or.inr hallfalse)]
    refine ⟨_, rfl, hnotunbound, ?_⟩
    refine ⟨_, List.mem_map_of_mem _ (List.mem_filter.mpr ⟨hbmem, ?_⟩), ?_, ?_⟩
    · rw [hentry]
      simp
    · rfl
    · rw [hentry]

/--
C10 witness: the style `body/md` with `fontSize` bound to the id `ghost`
while no variables are supplied: the property is classified as bound with
resolved name `unknown` and lands in the incorrect-bindings bucket.
-/
theorem C10_dangling_reference_witness :
    TypographyProperty.fontSize ∉ ((processTextStyle (variableIdToName [])
      ⟨"body/md", { fontSize := some ⟨"ghost"⟩ }⟩).getD
      ⟨"", "", "", [], [], false, false⟩).unboundProperties ∧
    (∃ b ∈ ((processTextStyle (variableIdToName [])
        ⟨"body/md", { fontSize := some ⟨"ghost"⟩ }⟩).getD
        ⟨"", "", "", [], [], false, false⟩).boundProperties,
      b.property = TypographyProperty.fontSize ∧ b.variableName = "unknown" ∧
        b.isCorrectBinding = false) ∧
    (∃ issue, issueOf ((processTextStyle (variableIdToName [])
        ⟨"body/md", { fontSize := some ⟨"ghost"⟩ }⟩).getD
        ⟨"", "", "", [], [], false, false⟩) = some issue ∧
      TypographyProperty.fontSize ∉ issue.unboundProps ∧
      ∃ e ∈ issue.incorrectBindings, e.1 = TypographyProperty.fontSize ∧
        e.2.1 = "unknown") :=
  C10_dangling_reference [] ⟨"body/md", { fontSize := some ⟨"ghost"⟩ }⟩
    TypographyProperty.fontSize ⟨"ghost"⟩ rfl (by decide) (by simp) (by decide)

mutual

/-- Pre-order traversal visits exactly the nodes of the subtree. -/
theorem collectAllNodes_length : ∀ n, (collectAllNodes n).length = spec_nodeCount n
  | .node d cs => by
    simp only [collectAllNodes, spec_nodeCount, List.length_cons]
    rw [collectAllNodesList_length cs]
    omega

/-- Forest version of `collectAllNodes_length`. -/
theorem collectAllNodesList_length :
    ∀ ns, (collectAllNodesList ns).length = spec_nodeCountList ns
  | [] => rfl
  | n :: ns => by
    simp only [collectAllNodesList, spec_nodeCountList, List.length_append]
    rw [collectAllNodes_length n, collectAllNodesList_length ns]

end

theorem bumpCount_fill (c : RawValueCounts) (cat : ComponentPropertyCategory) :
    (bumpCount c cat).fill =
      c.fill + (if cat = ComponentPropertyCategory.fill then 1 else 0) := by
  cases cat <;> simp [bumpCount]

theorem foldBump_fill (rvs : List RawValue) (c : RawValueCounts) :
    (rvs.foldl (fun cs rv => bumpCount cs rv.category) c).fill =
      c.fill + rvs.countP (fun rv => rv.category = ComponentPropertyCategory.fill) := by
  induction rvs generalizing c with
  | nil => simp
  | cons rv t ih =>
    rw [List.foldl_cons, ih, bumpCount_fill, List.countP_cons]
    by_cases h : rv.category = ComponentPropertyCategory.fill <;>
      (first
        | (simp [h]; omega)
        | simp [h])

theorem scanStep_fill (acc : List NodeRawValueResult × RawValueCounts) (n : LintNode) :
    (scanStep acc n).2.fill = acc.2.fill + nodeFillCount n := by
  simp only [scanStep, nodeFillCount]
  split
  · exact foldBump_fill _ _
  · rename_i h
    have hz : (checkNodeForRawValues n.data).rawValues = [] := by
      simpa [List.length_eq_zero] using h
    simp [hz]

theorem scanFold_fill (nodes : List LintNode)
    (acc : List NodeRawValueResult × RawValueCounts) :
    ((nodes.foldl scanStep acc).2).fill =
      acc.2.fill + (nodes.map nodeFillCount).sum := by
  induction nodes generalizing acc with
  | nil => simp
  | cons n ns ih =>
    rw [List.foldl_cons, ih, scanStep_fill]
    simp [Nat.add_assoc]

theorem length_filterMap_eq_length_filter {α β : Type} (f : α → Option β)
    (p : α → Bool) (h : ∀ x, (f x).isSome = p x) :
    ∀ l : List α, (l.filterMap f).length = (l.filter p).length := by
  intro l
  induction l with
  | nil => rfl
  | cons x t ih =>
    rcases hfx : f x with _ | y
    · have hpx : p x = false := by rw [← h x, hfx]; rfl
      rw [List.filterMap_cons, hfx, List.filter_cons, hpx]
      simpa using ih
    · have hpx : p x = true := by rw [← h x, hfx]; rfl
      rw [List.filterMap_cons, hfx, List.filter_cons, hpx]
      simpa using ih

theorem paintRawValues_category (cat : ComponentPropertyCategory) (prop : String)
    (ps : Option (List LintPaint)) (bs : List LintBoundVariable) :
    ∀ rv ∈ paintRawValues cat prop ps bs, rv.category = cat := by
  intro rv hrv
  unfold paintRawValues at hrv
  rcases ps with _ | ps
  · exact absurd hrv (List.not_mem_nil rv)
  · simp only [List.mem_filterMap] at hrv
    obtain ⟨ip, -, heq⟩ := hrv
    split at heq
    · split at heq
      · obtain rfl := Option.some.injEq .. ▸ heq
        rfl
      · exact Option.noConfusion heq
    · exact Option.noConfusion heq

theorem spacingRawValue_category (prop : String) (v : Option Int)
    (b : Option LintBoundVariable) :
    ∀ rv ∈ spacingRawValue prop v b, rv.category = ComponentPropertyCategory.spacing := by
  intro rv hrv
  unfold spacingRawValue at hrv
  split at hrv
  · split at hrv
    · rw [List.mem_singleton.mp hrv]
    · exact absurd hrv (List.not_mem_nil rv)
  · exact absurd hrv (List.not_mem_nil rv)

theorem cornerRadiusRawValues_category (v : Option Int) (b : Option LintBoundVariable) :
    ∀ rv ∈ cornerRadiusRawValues v b,
      rv.category = ComponentPropertyCategory.cornerRadius := by
  intro rv hrv
  unfold cornerRadiusRawValues at hrv
  split at hrv
  · split at hrv
    · rw [List.mem_singleton.mp hrv]
    · exact absurd hrv (List.not_mem_nil rv)
  · exact absurd hrv (List.not_mem_nil rv)

theorem spacingRawValues_category (d : NodeData) :
    ∀ rv ∈ spacingRawValues d, rv.category = ComponentPropertyCategory.spacing := by
  intro rv hrv
  unfold spacingRawValues at hrv
  split at hrv
  · simp only [List.mem_append] at hrv
    rcases hrv with ((((hrv | hrv) | hrv) | hrv) | hrv) <;>
      exact spacingRawValue_category _ _ _ rv hrv
  · exact absurd hrv (List.not_mem_nil rv)

theorem typographyRawValues_category (d : NodeData) :
    ∀ rv ∈ typographyRawValues d, rv.category = ComponentPropertyCategory.typography := by
  intro rv hrv
  unfold typographyRawValues at hrv
  split at hrv
  · simp only [List.mem_filterMap] at hrv
    obtain ⟨prop, -, heq⟩ := hrv
    repeat' split at heq
    all_goals
      first
        | exact Option.noConfusion heq
        | (obtain rfl := Option.some.injEq .. ▸ heq; rfl)
  · exact absurd hrv (List.not_mem_nil rv)

theorem effectRawValues_category (effects : Option (List LintEffect))
    (bindings : List LintBoundVariable) :
    ∀ rv ∈ effectRawValues effects bindings,
      rv.category = ComponentPropertyCategory.effect := by
  intro rv hrv
  unfold effectRawValues at hrv
  rcases effects with _ | effs
  · exact absurd hrv (List.not_mem_nil rv)
  · simp only [List.mem_filterMap] at hrv
    obtain ⟨ie, -, heq⟩ := hrv
    split at heq
    · obtain rfl := Option.some.injEq .. ▸ heq
      rfl
    · exact Option.noConfusion heq

theorem countP_fill_zero {l : List RawValue} {X : ComponentPropertyCategory}
    (hX : X ≠ ComponentPropertyCategory.fill)
    (h : ∀ rv ∈ l, rv.category = X) :
    l.countP (fun rv => rv.category = ComponentPropertyCategory.fill) = 0 :=
  List.countP_eq_zero.mpr (fun rv hrv => by simp [h rv hrv, hX])

theorem bool_and_rotate (a b c : Bool) : (a && b && c) = (a && c && b) := by
  cases a <;> cases b <;> cases c <;> rfl

theorem isSome_guard {β : Type} (b : Bool) (x : β) :
    (if b = true then some x else none).isSome = b := by
  cases b <;> simp

/-- The fill count of one node's raw-value list is exactly the number of
visible, non-transparent, unbound solid fill paints of that node. -/
theorem checkNode_fill_count (d : NodeData) :
    (checkNodeForRawValues d).rawValues.countP
      (fun rv => rv.category = ComponentPropertyCategory.fill) =
      spec_unboundSolidFillsOnNode d := by
  unfold checkNodeForRawValues
  simp only [List.countP_append]
  rw [countP_fill_zero (by decide) (paintRawValues_category
      ComponentPropertyCategory.stroke "stroke color" d.strokes d.boundVariables.strokes),
    countP_fill_zero (by decide) (cornerRadiusRawValues_category
      d.cornerRadius d.boundVariables.cornerRadius),
    countP_fill_zero (by decide) (spacingRawValues_category d),
    countP_fill_zero (by decide) (typographyRawValues_category d),
    countP_fill_zero (by decide) (effectRawValues_category
      d.effects d.boundVariables.effects)]
  simp only [Nat.add_zero]
  rw [List.countP_eq_length.mpr (fun rv hrv => by
    simp [paintRawValues_category _ _ _ _ rv hrv])]
  unfold paintRawValues spec_unboundSolidFillsOnNode
  rcases d.fills with _ | ps
  · rfl
  · refine length_filterMap_eq_length_filter _ _ ?_ ps.enum
    intro ip
    rcases hp : ip.2 with ⟨color, visible⟩ | ⟨ptype, visible⟩
    · show (if (visible && !hasIdxBinding d.boundVariables.fills ip.1 &&
          !isTransparentColor color) = true then
          some ({ category := ComponentPropertyCategory.fill, property := "fill color",
                  value := formatColor color } : RawValue) else none).isSome =
        (visible && !(decide (color.a = 0)) && !hasIdxBinding d.boundVariables.fills ip.1)
      rw [isSome_guard]
      unfold isTransparentColor
      exact bool_and_rotate _ _ _
    · show (none : Option RawValue).isSome = false
      rfl

mutual

/-- Summing the per-node fill counts over the pre-order traversal yields the
spec-level subtree count. -/
theorem sum_nodeFill_collect :
    ∀ n, ((collectAllNodes n).map nodeFillCount).sum = spec_unboundSolidFills n
  | .node d cs => by
    simp only [collectAllNodes, spec_unboundSolidFills, List.map_cons, List.sum_cons]
    rw [sum_nodeFill_collectList cs]
    congr 1
    exact checkNode_fill_count d

/-- Forest version of `sum_nodeFill_collect`. -/
theorem sum_nodeFill_collectList :
    ∀ ns, ((collectAllNodesList ns).map nodeFillCount).sum =
      spec_unboundSolidFillsList ns
  | [] => rfl
  | n :: ns => by
    simp only [collectAllNodesList, spec_unboundSolidFillsList, List.map_append,
      List.sum_append]
    rw [sum_nodeFill_collect n, sum_nodeFill_collectList ns]

end

/--
C7: for every component subtree, the scanner's `totalNodes` is exactly the
number of nodes of the subtree (the pre-order traversal visits every node,
with no pruning), and `rawValueCounts.fill` is exactly the number of `SOLID`
fill paints in the whole subtree that are visible, have alpha different from
zero, and carry no bound variable id at the matching index of
`boundVariables.fills` — independent of nesting depth.
-/
theorem C7_component_scanner (componentNode : LintNode) :
    (validateComponentBindings componentNode).totalNodes =
      spec_nodeCount componentNode ∧
    (validateComponentBindings componentNode).rawValueCounts.fill =
      spec_unboundSolidFills componentNode := by
  constructor
  · show (collectAllNodes componentNode).length = _
    exact collectAllNodes_length componentNode
  · show ((collectAllNodes componentNode).foldl scanStep ([], {})).2.fill = _
    rw [scanFold_fill]
    show 0 + _ = _
    rw [Nat.zero_add, sum_nodeFill_collect]

theorem jsIncludes_append_right (a b : String) : jsIncludes (a ++ b) b = true := by
  unfold jsIncludes
  refine decide_eq_true ?_
  show b.toList <:+: (a ++ b).toList
  have h : (a ++ b).toList = a.toList ++ b.toList := by
    simp [String.toList]
  rw [h]
  exact (List.suffix_append a.toList b.toList).isInfix

/--
C9: each validator's recovery boundary never re-throws: on the ok path the
body's record is returned unchanged, and a thrown value is converted into
exactly one synthetic check whose status is fail or warning and whose
suggestion embeds the thrown error's message, inside a well-formed result
record.
-/
theorem C9_error_recovery (e : JsThrown)
    (requirements : List CollectionRequirement)
    (pr1 : List TextStyleBindingResult)
    (pr2 : List ComponentBindingValidationResult)
    (r1 : CollectionStructureValidation)
    (r2 : TextStyleValidationResult × List AuditCheck)
    (r3 : List TextStyleBindingResult × List AuditCheck)
    (r4 : List ComponentBindingValidationResult × List AuditCheck) :
    (runValidateCollectionStructure requirements (Except.ok r1) = r1 ∧
     runValidateTextStylesAgainstVariables (Except.ok r2) = r2 ∧
     runValidateTextStyleBindings pr1 (Except.ok r3) = r3 ∧
     runValidateAllComponentBindings pr2 (Except.ok r4) = r4) ∧
    ((runValidateCollectionStructure requirements
        (Except.error e)).auditChecks.length = 1 ∧
      ∀ c ∈ (runValidateCollectionStructure requirements
        (Except.error e)).auditChecks,
        (c.status = AuditStatus.fail ∨ c.status = AuditStatus.warning) ∧
        jsIncludes c.suggestion (thrownMessage e) = true) ∧
    ((runValidateTextStylesAgainstVariables (Except.error e)).2.length = 1 ∧
      ∀ c ∈ (runValidateTextStylesAgainstVariables (Except.error e)).2,
        (c.status = AuditStatus.fail ∨ c.status = AuditStatus.warning) ∧
        jsIncludes c.suggestion (thrownMessage e) = true) ∧
    ((runValidateTextStyleBindings pr1 (Except.error e)).2.length = 1 ∧
      (runValidateTextStyleBindings pr1 (Except.error e)).1 = pr1 ∧
      ∀ c ∈ (runValidateTextStyleBindings pr1 (Except.error e)).2,
        (c.status = AuditStatus.fail ∨ c.status = AuditStatus.warning) ∧
        jsIncludes c.suggestion (thrownMessage e) = true) ∧
    ((runValidateAllComponentBindings pr2 (Except.error e)).2.length = 1 ∧
      (runValidateAllComponentBindings pr2 (Except.error e)).1 = pr2 ∧
      ∀ c ∈ (runValidateAllComponentBindings pr2 (Except.error e)).2,
        (c.status = AuditStatus.fail ∨ c.status = AuditStatus.warning) ∧
        jsIncludes c.suggestion (thrownMessage e) = true) := by
  refine ⟨⟨rfl, rfl, rfl, rfl⟩, ⟨rfl, ?_⟩, ⟨rfl, ?_⟩, ⟨rfl, rfl, ?_⟩, ⟨rfl, rfl, ?_⟩⟩ <;>
    · intro c hc
      rw [List.mem_singleton.mp hc]
      exact ⟨by simp [runValidateCollectionStructure,
        runValidateTextStylesAgainstVariables, runValidateTextStyleBindings,
        runValidateAllComponentBindings], jsIncludes_append_right _ _⟩

end FigmaLint
